import Mathlib

/-! # Mouse input translation and batching (`app/streaming/input/mouse.cpp`)

A shallow embedding of the mouse part of `SdlInputHandler`: the three event
handlers that run on the event thread, the hit test against the video region,
and the timer callback that drains the batched motion.

* C `int` fields are `Int`.  Where the source narrows a value (`(short)`,
  `(signed char)`, a `short` parameter) or an atomic addition can wrap, the
  reduction modulo `2^w` is written out.  The two subtractions `x - dst.x` and
  `y - dst.y` of the clamp, whose overflow is undefined behaviour in C++, are
  exact: the definitions follow the code wherever these differences fit in a
  signed 32-bit `int`, and the theorems on the clamped value carry that bound.
* Calls into the remote-input library are recorded as a list of `Cmd`.
* What the handlers ask of the window system is passed in as an `Env`.
-/

namespace SdlInputHandler

/-! ## Narrowing conversions -/

/-- The value of an integer converted to a signed type of `2^16` values:
reduce modulo `2^16`, read the result as two's complement (`(short)v`). -/
def toShort (v : Int) : Int :=
  let m := v % 65536
  if m < 32768 then m else m - 65536

/-- The value of an integer converted to `signed char`: reduce modulo `2^8`,
read the result as two's complement. -/
def toSChar (v : Int) : Int :=
  let m := v % 256
  if m < 128 then m else m - 256

/-- The value of an integer stored into a 32-bit `int`: reduce modulo `2^32`,
read the result as two's complement. -/
def toInt32 (v : Int) : Int :=
  let m := v % 4294967296
  if m < 2147483648 then m else m - 4294967296

/-! ## Constants of SDL and of the remote-input library -/

/-- `SDL_TOUCH_MOUSEID`, which is `((Uint32)-1)`. -/
abbrev SDL_TOUCH_MOUSEID : Nat := 4294967295

abbrev SDL_BUTTON_LEFT : Nat := 1
abbrev SDL_BUTTON_MIDDLE : Nat := 2
abbrev SDL_BUTTON_RIGHT : Nat := 3
abbrev SDL_BUTTON_X1 : Nat := 4
abbrev SDL_BUTTON_X2 : Nat := 5

abbrev SDL_RELEASED : Nat := 0
abbrev SDL_PRESSED : Nat := 1

/-- `SDL_MOUSEBUTTONUP` of `SDL_EventType`. -/
abbrev SDL_MOUSEBUTTONUP : Nat := 0x402

abbrev BUTTON_ACTION_PRESS : Int := 0x07
abbrev BUTTON_ACTION_RELEASE : Int := 0x08

abbrev BUTTON_LEFT : Int := 0x01
abbrev BUTTON_MIDDLE : Int := 0x02
abbrev BUTTON_RIGHT : Int := 0x03
abbrev BUTTON_X1 : Int := 0x04
abbrev BUTTON_X2 : Int := 0x05

/-- The mask `SDL_BUTTON(X)`, which is `1 << (X - 1)` on a 32-bit `int`: the
shift uses the low five bits of the count, so the mask is one of the 32 bits
of the button state for every `X`. -/
def SDL_BUTTON (x : Int) : Nat := 1 <<< ((x - 1) % 32).toNat

/-! ## Events, commands, state -/

/-- The fields of `SDL_MouseButtonEvent`. -/
structure SDL_MouseButtonEvent where
  type : Nat
  timestamp : Nat
  windowID : Nat
  which : Nat
  button : Nat
  state : Nat
  clicks : Nat
  x : Int
  y : Int
  deriving DecidableEq, Repr

/-- The fields of `SDL_MouseMotionEvent` that the handler reads. -/
structure SDL_MouseMotionEvent where
  which : Nat
  x : Int
  y : Int
  xrel : Int
  yrel : Int
  deriving DecidableEq, Repr

/-- The fields of `SDL_MouseWheelEvent` that the handler reads. -/
structure SDL_MouseWheelEvent where
  which : Nat
  x : Int
  y : Int
  deriving DecidableEq, Repr

/-- A command handed to the remote-input library, with the values it
receives. -/
inductive Cmd where
  | button (action : Int) (button : Int)
  | move (deltaX deltaY : Int)
  | position (x y referenceWidth referenceHeight : Int)
  | scroll (scrollClicks : Int)
  deriving DecidableEq, Repr

/-- Modelled from the spec: the prototype of `LiSendMouseButtonEvent` lives in
`Limelight.h`; the spec gives `sendButtonEvent(action, button)`. -/
def LiSendMouseButtonEvent (action button : Int) : Cmd :=
  Cmd.button action button

/-- Modelled from the spec: the prototype of `LiSendMouseMoveEvent` lives in
`Limelight.h`; the spec gives `sendMoveEvent(dx: int16, dy: int16)`, so the
arguments are converted to `short`. -/
def LiSendMouseMoveEvent (deltaX deltaY : Int) : Cmd :=
  Cmd.move (toShort deltaX) (toShort deltaY)

/-- Modelled from the spec: the prototype of `LiSendMousePositionEvent` lives
in `Limelight.h`; the spec gives `sendPositionEvent(x: int16, y: int16,
referenceWidth: int16, referenceHeight: int16)`, so the `int` arguments
`dst.w` and `dst.h` are converted to `short` at the call. -/
def LiSendMousePositionEvent (x y referenceWidth referenceHeight : Int) : Cmd :=
  Cmd.position (toShort x) (toShort y) (toShort referenceWidth) (toShort referenceHeight)

/-- Modelled from the spec: the prototype of `LiSendScrollEvent` lives in
`Limelight.h`; the spec gives `sendScrollEvent(delta: int8)`. -/
def LiSendScrollEvent (scrollClicks : Int) : Cmd :=
  Cmd.scroll (toSChar scrollClicks)

/-- The struct `m_MousePositionReport`. -/
structure MousePositionReport where
  x : Int
  y : Int
  windowWidth : Int
  windowHeight : Int
  deriving DecidableEq, Repr

/-- The members of `SdlInputHandler` that `mouse.cpp` reads or writes.
`captureActive` is the capture state behind `isCaptureActive` and
`setCaptureActive`. -/
structure State where
  captureActive : Bool
  m_AbsoluteMouseMode : Bool
  m_MouseDeltaX : Int
  m_MouseDeltaY : Int
  m_MousePositionReport : MousePositionReport
  m_MousePositionUpdated : Int
  m_MousePositionLock : Int
  m_StreamWidth : Int
  m_StreamHeight : Int
  m_PendingMouseLeaveButtonUp : Int
  deriving DecidableEq, Repr

/-- What the window system answers during one call: `SDL_GetWindowSize`,
`SDL_GetGlobalMouseState`, `SDL_GetWindowPosition`, `SDL_GetTicks`,
`SDL_GetWindowID`, and whether the build defines `Q_OS_WIN32`. -/
structure Env where
  windowWidth : Int
  windowHeight : Int
  win32 : Bool
  globalMouseState : Nat
  globalMouseX : Int
  globalMouseY : Int
  windowX : Int
  windowY : Int
  ticks : Nat
  windowID : Nat
  deriving DecidableEq, Repr

/-- Modelled from the spec: `isCaptureActive` is defined outside `mouse.cpp`;
the spec gives `CaptureState` as one boolean `active` read by every handler. -/
def isCaptureActive (s : State) : Bool := s.captureActive

/-- Modelled from the spec: `setCaptureActive` is defined outside `mouse.cpp`;
the spec gives it as the setter of the boolean `active`. -/
def setCaptureActive (s : State) (active : Bool) : State :=
  { s with captureActive := active }

/-! ## Atomics and the spinlock -/

/-- `SDL_AtomicSet`: store `v`, return the previous value. -/
def SDL_AtomicSet (a v : Int) : Int × Int := (v, a)

/-- `SDL_AtomicAdd`: add `v` to the 32-bit atomic, return the previous
value. -/
def SDL_AtomicAdd (a v : Int) : Int × Int := (toInt32 (a + v), a)

/-- `SDL_AtomicLock` spins until the lock is free and then takes it.  Run
without another thread it returns exactly when the lock is free; `none` is the
call that never returns. -/
def SDL_AtomicLock (lock : Int) : Option Int :=
  if lock = 0 then some 1 else none

/-- `SDL_AtomicTryLock`: take the lock if it is free, and say whether it was
taken. -/
def SDL_AtomicTryLock (lock : Int) : Bool × Int :=
  if lock = 0 then (true, 1) else (false, lock)

/-- `SDL_AtomicUnlock`. -/
def SDL_AtomicUnlock (_lock : Int) : Int := 0

/-! ## The video region -/

/-- An `SDL_Rect`. -/
structure SDL_Rect where
  x : Int
  y : Int
  w : Int
  h : Int
  deriving DecidableEq, Repr

/-- Modelled from the spec: `StreamUtils::scaleSourceToDestinationSurface` is
defined in `streaming/streamutils.cpp`, which this development does not cover.  The spec
gives it as the maximal sub-rectangle of `dst`, centered, that keeps the aspect
ratio of `src` (letterbox or pillarbox), with `800x600` into `1600x900` giving
`x=200, y=0, w=1200, h=900`.  In integers: the height that the full width would
need is `dst.w * src.h / src.w`; when that exceeds `dst.h` the full height is
used and the width `dst.h * src.w / src.h` is centered horizontally, otherwise
the full width is used and the height is centered vertically. -/
def scaleSourceToDestinationSurface (src dst : SDL_Rect) : SDL_Rect :=
  let dstH := Int.tdiv (dst.w * src.h) src.w
  let dstW := Int.tdiv (dst.h * src.w) src.h
  if dstH > dst.h then
    { dst with x := dst.x + Int.tdiv (dst.w - dstW) 2, w := dstW }
  else
    { dst with y := dst.y + Int.tdiv (dst.h - dstH) 2, h := dstH }

/-- The video region for a window size: `src` is the stream size at the
origin, `dst` the window at the origin, as both `isMouseInVideoRegion` and
`mouseMoveTimerCallback` set them up before scaling. -/
def videoRegion (s : State) (windowWidth windowHeight : Int) : SDL_Rect :=
  let src : SDL_Rect := { x := 0, y := 0, w := s.m_StreamWidth, h := s.m_StreamHeight }
  let dst : SDL_Rect := { x := 0, y := 0, w := windowWidth, h := windowHeight }
  scaleSourceToDestinationSurface src dst

/-! ## The event handlers -/

/-- `SdlInputHandler::handleMouseButtonEvent`. -/
def handleMouseButtonEvent (s : State) (event : SDL_MouseButtonEvent) : State × List Cmd :=
  if event.which = SDL_TOUCH_MOUSEID then
    -- Ignore synthetic mouse events
    (s, [])
  else if !isCaptureActive s then
    if event.button = SDL_BUTTON_LEFT ∧ event.state = SDL_RELEASED then
      (setCaptureActive s true, [])
    else
      (s, [])
  else
    let mapped : Option Int :=
      if event.button = SDL_BUTTON_LEFT then some BUTTON_LEFT
      else if event.button = SDL_BUTTON_MIDDLE then some BUTTON_MIDDLE
      else if event.button = SDL_BUTTON_RIGHT then some BUTTON_RIGHT
      else if event.button = SDL_BUTTON_X1 then some BUTTON_X1
      else if event.button = SDL_BUTTON_X2 then some BUTTON_X2
      else none
    match mapped with
    | none => (s, [])
    | some button =>
      (s, [LiSendMouseButtonEvent
            (if event.state = SDL_PRESSED then BUTTON_ACTION_PRESS else BUTTON_ACTION_RELEASE)
            button])

/-- `SdlInputHandler::updateMousePositionReport`.  The result is `none` when
`SDL_AtomicLock` never returns. -/
def updateMousePositionReport (env : Env) (s : State) (mouseX mouseY : Int) : Option State :=
  let windowWidth := env.windowWidth
  let windowHeight := env.windowHeight
  match SDL_AtomicLock s.m_MousePositionLock with
  | none => none
  | some held =>
    let s1 := { s with m_MousePositionLock := held }
    let s2 := { s1 with m_MousePositionReport :=
                  { x := mouseX, y := mouseY,
                    windowWidth := windowWidth, windowHeight := windowHeight } }
    let s3 := { s2 with m_MousePositionLock := SDL_AtomicUnlock s2.m_MousePositionLock }
    some { s3 with m_MousePositionUpdated := (SDL_AtomicSet s3.m_MousePositionUpdated 1).1 }

/-- `SdlInputHandler::handleMouseMotionEvent`.  The result is `none` when the
call never returns (see `updateMousePositionReport`). -/
def handleMouseMotionEvent (env : Env) (s : State) (event : SDL_MouseMotionEvent) :
    Option (State × List Cmd) :=
  if !isCaptureActive s then
    -- Not capturing
    some (s, [])
  else if event.which = SDL_TOUCH_MOUSEID then
    -- Ignore synthetic mouse events
    some (s, [])
  else if s.m_AbsoluteMouseMode then
    (updateMousePositionReport env s event.x event.y).map (fun t => (t, []))
  else
    let s1 := { s with m_MouseDeltaX := (SDL_AtomicAdd s.m_MouseDeltaX event.xrel).1 }
    let s2 := { s1 with m_MouseDeltaY := (SDL_AtomicAdd s1.m_MouseDeltaY event.yrel).1 }
    some (s2, [])

/-- `SdlInputHandler::handleMouseWheelEvent`. -/
def handleMouseWheelEvent (s : State) (event : SDL_MouseWheelEvent) : State × List Cmd :=
  if !isCaptureActive s then
    (s, [])
  else if event.which = SDL_TOUCH_MOUSEID then
    (s, [])
  else if event.y ≠ 0 then
    (s, [LiSendScrollEvent event.y])
  else
    (s, [])

/-- `SdlInputHandler::isMouseInVideoRegion`. -/
def isMouseInVideoRegion (env : Env) (s : State) (mouseX mouseY windowWidth windowHeight : Int) :
    Bool :=
  let size : Int × Int :=
    if windowWidth < 0 ∨ windowHeight < 0 then (env.windowWidth, env.windowHeight)
    else (windowWidth, windowHeight)
  let dst := videoRegion s size.1 size.2
  (decide (mouseX ≥ dst.x) && decide (mouseX ≤ dst.x + dst.w)) &&
    (decide (mouseY ≥ dst.y) && decide (mouseY ≤ dst.y + dst.h))

/-! ## The timer callback -/

/-- What one run of the timer callback leaves behind: the handler state, the
commands sent to the remote-input library, and the events pushed with
`SDL_PushEvent`. -/
structure TimerResult where
  state : State
  cmds : List Cmd
  pushed : List SDL_MouseButtonEvent
  deriving DecidableEq, Repr

/-- Lines 140-145 of `mouseMoveTimerCallback`: exchange both accumulators with
zero, narrow to `short`, send a move if either is non-zero. -/
def drainMouseDelta (me : State) : State × List Cmd :=
  let deltaX := toShort (SDL_AtomicSet me.m_MouseDeltaX 0).2
  let s1 := { me with m_MouseDeltaX := (SDL_AtomicSet me.m_MouseDeltaX 0).1 }
  let deltaY := toShort (SDL_AtomicSet s1.m_MouseDeltaY 0).2
  let s2 := { s1 with m_MouseDeltaY := (SDL_AtomicSet s1.m_MouseDeltaY 0).1 }
  if deltaX ≠ 0 ∨ deltaY ≠ 0 then
    (s2, [LiSendMouseMoveEvent deltaX deltaY])
  else
    (s2, [])

/-- Lines 147-175 of `mouseMoveTimerCallback`: test and clear the updated
flag, try the lock, clamp the reported position into the video region and send
it.  The differences `x - dst.x` and `y - dst.y` are exact, which is what lines
166-167 compute as long as they fit in a signed 32-bit `int`. -/
def drainMousePosition (me : State) : State × List Cmd :=
  let hasNewPosition := (SDL_AtomicSet me.m_MousePositionUpdated 0).2 ≠ 0
  let s1 := { me with m_MousePositionUpdated := (SDL_AtomicSet me.m_MousePositionUpdated 0).1 }
  if hasNewPosition then
    let attempt := SDL_AtomicTryLock s1.m_MousePositionLock
    if attempt.1 then
      let s2 := { s1 with m_MousePositionLock := attempt.2 }
      let dst := videoRegion s2 s2.m_MousePositionReport.windowWidth
                   s2.m_MousePositionReport.windowHeight
      -- Clamp motion to the video region
      let x := toShort (min (max (s2.m_MousePositionReport.x - dst.x) 0) dst.w)
      let y := toShort (min (max (s2.m_MousePositionReport.y - dst.y) 0) dst.h)
      let s3 := { s2 with m_MousePositionLock := SDL_AtomicUnlock s2.m_MousePositionLock }
      (s3, [LiSendMousePositionEvent x y dst.w dst.h])
    else
      (s1, [])
  else
    (s1, [])

/-- Lines 177-203 of `mouseMoveTimerCallback`, compiled only under
`Q_OS_WIN32`: once the button remembered in `m_PendingMouseLeaveButtonUp` is
up, push a button-up event for it and forget it.  The `int` is stored into
the `Uint8` field `button`, hence the reduction modulo `2^8`. -/
def pendingMouseLeaveButtonUp (env : Env) (me : State) : State × List SDL_MouseButtonEvent :=
  if env.win32 ∧ me.m_AbsoluteMouseMode ∧ me.m_PendingMouseLeaveButtonUp ≠ 0 ∧
      isCaptureActive me then
    if env.globalMouseState &&& SDL_BUTTON me.m_PendingMouseLeaveButtonUp = 0 then
      let event : SDL_MouseButtonEvent :=
        { type := SDL_MOUSEBUTTONUP
          timestamp := env.ticks
          windowID := env.windowID
          which := 0
          button := (me.m_PendingMouseLeaveButtonUp % 256).toNat
          state := SDL_RELEASED
          clicks := 1
          x := env.globalMouseX - env.windowX
          y := env.globalMouseY - env.windowY }
      ({ me with m_PendingMouseLeaveButtonUp := 0 }, [event])
    else
      (me, [])
  else
    (me, [])

/-- `SdlInputHandler::mouseMoveTimerCallback`: the three parts in source
order. -/
def mouseMoveTimerCallback (env : Env) (me : State) : TimerResult :=
  let r1 := drainMouseDelta me
  let r2 := drainMousePosition r1.1
  let r3 := pendingMouseLeaveButtonUp env r2.1
  { state := r3.1, cmds := r1.2 ++ r2.2, pushed := r3.2 }

/-! ## Runs of motion events -/

/-- The motion handler applied to a sequence of events in arrival order, with
the commands of all calls collected; `none` as soon as one call does not
return. -/
def handleMouseMotionEvents (env : Env) (s : State) :
    List SDL_MouseMotionEvent → Option (State × List Cmd)
  | [] => some (s, [])
  | e :: es =>
    match handleMouseMotionEvent env s e with
    | none => none
    | some r1 =>
      match handleMouseMotionEvents env r1.1 es with
      | none => none
      | some r2 => some (r2.1, r1.2 ++ r2.2)

/-- Whether a command is a relative move. -/
def Cmd.isMove : Cmd → Bool
  | Cmd.move _ _ => true
  | _ => false

/-- Whether a command is an absolute position. -/
def Cmd.isPosition : Cmd → Bool
  | Cmd.position _ _ _ _ => true
  | _ => false

/-! ## Sample inputs -/

/-- A handler for an `800x600` stream: capture inactive, relative mode,
nothing batched, lock free. -/
def idleState : State :=
  { captureActive := false
    m_AbsoluteMouseMode := false
    m_MouseDeltaX := 0
    m_MouseDeltaY := 0
    m_MousePositionReport := { x := 0, y := 0, windowWidth := 0, windowHeight := 0 }
    m_MousePositionUpdated := 0
    m_MousePositionLock := 0
    m_StreamWidth := 800
    m_StreamHeight := 600
    m_PendingMouseLeaveButtonUp := 0 }

/-- The same handler with capture active. -/
def capturedState : State := { idleState with captureActive := true }

/-- A captured handler in absolute mode for an `800x600` stream, holding a
fresh position report `(x, y)` taken in a window of the given size. -/
def reportState (x y windowWidth windowHeight : Int) : State :=
  { capturedState with
    m_AbsoluteMouseMode := true
    m_MousePositionReport :=
      { x := x, y := y, windowWidth := windowWidth, windowHeight := windowHeight }
    m_MousePositionUpdated := 1 }

/-- A `1600x900` window at the screen origin, no button held, not a Windows
build. -/
def sampleEnv : Env :=
  { windowWidth := 1600
    windowHeight := 900
    win32 := false
    globalMouseState := 0
    globalMouseX := 0
    globalMouseY := 0
    windowX := 0
    windowY := 0
    ticks := 0
    windowID := 1 }

/-- The same surroundings after the window has been resized to `640x480`. -/
def resizedEnv : Env := { sampleEnv with windowWidth := 640, windowHeight := 480 }

/-- A button event from the physical mouse `0`. -/
def buttonEvent (button state : Nat) : SDL_MouseButtonEvent :=
  { type := 0, timestamp := 0, windowID := 1, which := 0
    button := button, state := state, clicks := 1, x := 10, y := 10 }

/-- A button event with the touch source id. -/
def touchButtonEvent (button state : Nat) : SDL_MouseButtonEvent :=
  { buttonEvent button state with which := SDL_TOUCH_MOUSEID }

/-- A motion event from the physical mouse `0`. -/
def motionEvent (xrel yrel : Int) : SDL_MouseMotionEvent :=
  { which := 0, x := 10, y := 10, xrel := xrel, yrel := yrel }

/-- A wheel event from the physical mouse `0`. -/
def wheelEvent (y : Int) : SDL_MouseWheelEvent :=
  { which := 0, x := 0, y := y }

/-- A captured handler in relative mode for an `800x600` stream with the given
accumulated deltas. -/
def deltaState (deltaX deltaY : Int) : State :=
  { capturedState with m_MouseDeltaX := deltaX, m_MouseDeltaY := deltaY }

/-- A Windows build with the given global button mask. -/
def windowsEnv (buttons : Nat) : Env :=
  { sampleEnv with win32 := true, globalMouseState := buttons }

/-- A captured handler in absolute mode, nothing batched, that remembers a
left-button press to be released after the pointer left the window. -/
def pendingLeaveState : State :=
  { reportState 0 0 1600 900 with
    m_MousePositionUpdated := 0
    m_PendingMouseLeaveButtonUp := 1 }

/-- A handler that holds both accumulated relative motion and a fresh position
report. -/
def mixedState : State :=
  { reportState 900 450 1600 900 with m_MouseDeltaX := 3 }

/-! ## The event thread inside `updateMousePositionReport`, statement by statement

The two threads share the members of `State`.  Each access to a shared member
is one step, and the steps of the two threads interleave in any order. -/

/-- Where the event thread stands inside `updateMousePositionReport`.  The
record `a` holds the two arguments and the window size read on line 64. -/
inductive WriterPc where
  /-- Outside the function. -/
  | idle
  /-- About to run `SDL_AtomicLock`, line 66. -/
  | lock (a : MousePositionReport)
  /-- Holding the lock, about to store `x`, line 67. -/
  | writeX (a : MousePositionReport)
  /-- About to store `y`, line 68. -/
  | writeY (a : MousePositionReport)
  /-- About to store `windowWidth`, line 69. -/
  | writeWidth (a : MousePositionReport)
  /-- About to store `windowHeight`, line 70. -/
  | writeHeight (a : MousePositionReport)
  /-- About to run `SDL_AtomicUnlock`, line 71. -/
  | unlock (a : MousePositionReport)
  /-- Lock released, about to set `m_MousePositionUpdated`, line 72. -/
  | setUpdated (a : MousePositionReport)
  deriving DecidableEq, Repr

/-- Entering `updateMousePositionReport (mouseX, mouseY)`: the window size is
read before the lock is asked for. -/
def writerCall (env : Env) (mouseX mouseY : Int) : WriterPc :=
  WriterPc.lock
    { x := mouseX, y := mouseY,
      windowWidth := env.windowWidth, windowHeight := env.windowHeight }

/-- The next statement of `updateMousePositionReport`.  There is none when the
thread is outside the function, and none while `SDL_AtomicLock` spins. -/
def writerStep (s : State) : WriterPc → Option (State × WriterPc)
  | WriterPc.idle => none
  | WriterPc.lock a =>
    match SDL_AtomicLock s.m_MousePositionLock with
    | none => none
    | some held => some ({ s with m_MousePositionLock := held }, WriterPc.writeX a)
  | WriterPc.writeX a =>
    some ({ s with m_MousePositionReport := { s.m_MousePositionReport with x := a.x } },
      WriterPc.writeY a)
  | WriterPc.writeY a =>
    some ({ s with m_MousePositionReport := { s.m_MousePositionReport with y := a.y } },
      WriterPc.writeWidth a)
  | WriterPc.writeWidth a =>
    some ({ s with m_MousePositionReport :=
              { s.m_MousePositionReport with windowWidth := a.windowWidth } },
      WriterPc.writeHeight a)
  | WriterPc.writeHeight a =>
    some ({ s with m_MousePositionReport :=
              { s.m_MousePositionReport with windowHeight := a.windowHeight } },
      WriterPc.unlock a)
  | WriterPc.unlock a =>
    some ({ s with m_MousePositionLock := SDL_AtomicUnlock s.m_MousePositionLock },
      WriterPc.setUpdated a)
  | WriterPc.setUpdated _ =>
    some ({ s with m_MousePositionUpdated := (SDL_AtomicSet s.m_MousePositionUpdated 1).1 },
      WriterPc.idle)

/-- Whether the event thread holds the lock. -/
def WriterPc.inSection : WriterPc → Bool
  | WriterPc.writeX _ => true
  | WriterPc.writeY _ => true
  | WriterPc.writeWidth _ => true
  | WriterPc.writeHeight _ => true
  | WriterPc.unlock _ => true
  | _ => false

/-- The record that the call in progress is writing. -/
def WriterPc.args : WriterPc → Option MousePositionReport
  | WriterPc.idle => none
  | WriterPc.lock a => some a
  | WriterPc.writeX a => some a
  | WriterPc.writeY a => some a
  | WriterPc.writeWidth a => some a
  | WriterPc.writeHeight a => some a
  | WriterPc.unlock a => some a
  | WriterPc.setUpdated a => some a

/-- How much of its record the event thread has stored so far. -/
def writerProgress (rep : MousePositionReport) : WriterPc → Prop
  | WriterPc.writeY a => rep.x = a.x
  | WriterPc.writeWidth a => rep.x = a.x ∧ rep.y = a.y
  | WriterPc.writeHeight a => rep.x = a.x ∧ rep.y = a.y ∧ rep.windowWidth = a.windowWidth
  | WriterPc.unlock a => rep = a
  | WriterPc.setUpdated a => rep = a
  | _ => True

/-- The position command that lines 152-173 of the timer callback build from a
snapshot of the report and the stream size, with the same exact differences as
`drainMousePosition`. -/
def positionCommand (streamWidth streamHeight : Int) (snap : MousePositionReport) : Cmd :=
  let src : SDL_Rect := { x := 0, y := 0, w := streamWidth, h := streamHeight }
  let dst0 : SDL_Rect := { x := 0, y := 0, w := snap.windowWidth, h := snap.windowHeight }
  let dst := scaleSourceToDestinationSurface src dst0
  let x := toShort (min (max (snap.x - dst.x) 0) dst.w)
  let y := toShort (min (max (snap.y - dst.y) 0) dst.h)
  LiSendMousePositionEvent x y dst.w dst.h

/-! ## Writer statements interleaved with whole timer ticks -/

/-- The shared members, where the event thread stands, and the commands sent
so far. -/
structure Config where
  mem : State
  writer : WriterPc
  sent : List Cmd
  deriving DecidableEq, Repr

/-- What may happen next: the event thread enters `updateMousePositionReport`,
the event thread runs its next statement, or the timer thread runs
`mouseMoveTimerCallback` from start to end. -/
inductive Action where
  | call (env : Env) (mouseX mouseY : Int)
  | write
  | tick (env : Env)
  deriving DecidableEq, Repr

/-- One action; `none` when the action cannot happen in this configuration. -/
def step (c : Config) : Action → Option Config
  | Action.call env mouseX mouseY =>
    if c.writer = WriterPc.idle then some { c with writer := writerCall env mouseX mouseY }
    else none
  | Action.write =>
    match writerStep c.mem c.writer with
    | none => none
    | some r => some { c with mem := r.1, writer := r.2 }
  | Action.tick env =>
    some { c with mem := (mouseMoveTimerCallback env c.mem).state,
                  sent := c.sent ++ (mouseMoveTimerCallback env c.mem).cmds }

/-- A schedule of actions, run in order. -/
def run (c : Config) : List Action → Option Config
  | [] => some c
  | a :: rest =>
    match step c a with
    | none => none
    | some c1 => run c1 rest

/-- Both threads outside their functions, nothing sent yet. -/
def initial (s : State) : Config := { mem := s, writer := WriterPc.idle, sent := [] }

/-- Whether an action is a new call of `updateMousePositionReport`. -/
def Action.isCall : Action → Bool
  | Action.call _ _ _ => true
  | _ => false

/-- The statements that the event thread still has to run before it leaves
`updateMousePositionReport`, once it holds the lock. -/
def WriterPc.remaining : WriterPc → Nat
  | WriterPc.idle => 0
  | WriterPc.lock _ => 7
  | WriterPc.writeX _ => 6
  | WriterPc.writeY _ => 5
  | WriterPc.writeWidth _ => 4
  | WriterPc.writeHeight _ => 3
  | WriterPc.unlock _ => 2
  | WriterPc.setUpdated _ => 1

/-- What holds in every configuration reached from `initial s` with the lock
free: the lock is held exactly while the event thread is between lines 67 and
71, the event thread has stored the fields its position says, and the stream
size is the one of `s`. -/
structure Reached (s0 : State) (c : Config) : Prop where
  lockHeld : c.mem.m_MousePositionLock = 0 ↔ c.writer.inSection = false
  progress : writerProgress c.mem.m_MousePositionReport c.writer
  stream : c.mem.m_StreamWidth = s0.m_StreamWidth ∧ c.mem.m_StreamHeight = s0.m_StreamHeight

/-- The situation after a tick has cleared the flag and failed to take the
lock while the event thread was writing the record `a`, `base` being the
position commands sent until then: until the event thread has set the flag no
position is sent; once it has, the record `a` is pending with the lock free;
after the first tick from there, the position of `a` has been sent. -/
def Deferred (streamWidth streamHeight : Int) (base : List Cmd) (a : MousePositionReport)
    (c : Config) : Prop :=
  c.mem.m_StreamWidth = streamWidth ∧ c.mem.m_StreamHeight = streamHeight ∧
  match c.writer with
  | WriterPc.idle =>
    c.mem.m_MousePositionLock = 0 ∧
    ((c.mem.m_MousePositionUpdated ≠ 0 ∧ c.mem.m_MousePositionReport = a ∧
        c.sent.filter Cmd.isPosition = base) ∨
      (c.mem.m_MousePositionUpdated = 0 ∧
        c.sent.filter Cmd.isPosition = base ++ [positionCommand streamWidth streamHeight a]))
  | WriterPc.lock _ => False
  | WriterPc.setUpdated b =>
    b = a ∧ c.mem.m_MousePositionLock = 0 ∧ c.mem.m_MousePositionUpdated = 0 ∧
      c.mem.m_MousePositionReport = a ∧ c.sent.filter Cmd.isPosition = base
  | pc =>
    pc.args = some a ∧ c.mem.m_MousePositionLock ≠ 0 ∧ c.mem.m_MousePositionUpdated = 0 ∧
      writerProgress c.mem.m_MousePositionReport pc ∧ c.sent.filter Cmd.isPosition = base

/-- A first call writes `(10, 20)` in a `640x480` window and returns, leaving
the flag set; a second call, for `(900, 450)` in a `1600x900` window, has taken
the lock and stored `x` and `y`. -/
def busySchedule : List Action :=
  [Action.call resizedEnv 10 20, Action.write, Action.write, Action.write, Action.write,
   Action.write, Action.write, Action.write,
   Action.call sampleEnv 900 450, Action.write, Action.write, Action.write]

/-- The configuration that `busySchedule` leads to from `capturedState`. -/
def busyConfig : Config :=
  (run (initial capturedState) busySchedule).getD (initial capturedState)

/-- The rest of that call with ticks in between and after. -/
def finishingSchedule : List Action :=
  [Action.write, Action.tick sampleEnv, Action.write, Action.write, Action.tick sampleEnv,
   Action.write, Action.tick sampleEnv, Action.tick sampleEnv]

/-! ## Both threads statement by statement -/

/-- Where the timer thread stands inside `mouseMoveTimerCallback`, with the
values it has read from the report so far. -/
inductive TimerPc where
  /-- Outside the callback. -/
  | idle
  /-- Lines 140-145 done, about to exchange the updated flag, line 147. -/
  | testFlag
  /-- The flag was set, about to run `SDL_AtomicTryLock`, line 151. -/
  | tryLock
  /-- Holding the lock, about to read `windowWidth`, line 159. -/
  | readWidth
  /-- About to read `windowHeight`, line 160. -/
  | readHeight (w : Int)
  /-- About to read `x`, line 166. -/
  | readX (w h : Int)
  /-- About to read `y`, line 167. -/
  | readY (w h x : Int)
  /-- All four fields read, about to run `SDL_AtomicUnlock`, line 170. -/
  | unlock (snap : MousePositionReport)
  /-- Lock released, about to send the position, line 173. -/
  | send (snap : MousePositionReport)
  /-- About to run lines 177-203. -/
  | tail
  deriving DecidableEq, Repr

/-- The next statement of `mouseMoveTimerCallback`: the new shared members, the
new position in the code, the commands sent.  Lines 140-145 touch only the two
accumulators and are taken in one step, as are lines 177-203, which do not touch
the report, its lock or its flag.  The clamp of lines 166-167 is applied when
the command is built, from the values read on those lines. -/
def timerStep (env : Env) (s : State) : TimerPc → State × TimerPc × List Cmd
  | TimerPc.idle => ((drainMouseDelta s).1, TimerPc.testFlag, (drainMouseDelta s).2)
  | TimerPc.testFlag =>
    let hasNewPosition := (SDL_AtomicSet s.m_MousePositionUpdated 0).2 ≠ 0
    let s1 := { s with m_MousePositionUpdated := (SDL_AtomicSet s.m_MousePositionUpdated 0).1 }
    if hasNewPosition then (s1, TimerPc.tryLock, []) else (s1, TimerPc.tail, [])
  | TimerPc.tryLock =>
    let attempt := SDL_AtomicTryLock s.m_MousePositionLock
    if attempt.1 then ({ s with m_MousePositionLock := attempt.2 }, TimerPc.readWidth, [])
    else (s, TimerPc.tail, [])
  | TimerPc.readWidth => (s, TimerPc.readHeight s.m_MousePositionReport.windowWidth, [])
  | TimerPc.readHeight w => (s, TimerPc.readX w s.m_MousePositionReport.windowHeight, [])
  | TimerPc.readX w h => (s, TimerPc.readY w h s.m_MousePositionReport.x, [])
  | TimerPc.readY w h x =>
    (s, TimerPc.unlock { x := x, y := s.m_MousePositionReport.y,
                         windowWidth := w, windowHeight := h }, [])
  | TimerPc.unlock snap =>
    ({ s with m_MousePositionLock := SDL_AtomicUnlock s.m_MousePositionLock },
      TimerPc.send snap, [])
  | TimerPc.send snap =>
    (s, TimerPc.tail, [positionCommand s.m_StreamWidth s.m_StreamHeight snap])
  | TimerPc.tail => ((pendingMouseLeaveButtonUp env s).1, TimerPc.idle, [])

/-- Whether the timer thread holds the lock. -/
def TimerPc.inSection : TimerPc → Bool
  | TimerPc.readWidth => true
  | TimerPc.readHeight _ => true
  | TimerPc.readX _ _ => true
  | TimerPc.readY _ _ _ => true
  | TimerPc.unlock _ => true
  | _ => false

/-- The complete snapshot that the timer thread holds, if it has one. -/
def TimerPc.snapshot : TimerPc → Option MousePositionReport
  | TimerPc.unlock snap => some snap
  | TimerPc.send snap => some snap
  | _ => none

/-- The shared members, where each thread stands, the commands sent so far, and
the records of all calls of `updateMousePositionReport` begun so far, oldest
first. -/
structure FineConfig where
  mem : State
  writer : WriterPc
  timer : TimerPc
  sent : List Cmd
  writes : List MousePositionReport
  deriving DecidableEq, Repr

/-- What may happen next: the event thread enters `updateMousePositionReport`,
the event thread runs its next statement, or the timer thread runs its next
statement. -/
inductive FineAction where
  | call (env : Env) (mouseX mouseY : Int)
  | write
  | timer (env : Env)
  deriving DecidableEq, Repr

/-- One action; `none` when the action cannot happen in this configuration. -/
def fineStep (c : FineConfig) : FineAction → Option FineConfig
  | FineAction.call env mouseX mouseY =>
    if c.writer = WriterPc.idle then
      some { c with
        writer := writerCall env mouseX mouseY
        writes := c.writes ++ [{ x := mouseX, y := mouseY, windowWidth := env.windowWidth,
                                 windowHeight := env.windowHeight }] }
    else none
  | FineAction.write =>
    match writerStep c.mem c.writer with
    | none => none
    | some r => some { c with mem := r.1, writer := r.2 }
  | FineAction.timer env =>
    some { c with
      mem := (timerStep env c.mem c.timer).1
      timer := (timerStep env c.mem c.timer).2.1
      sent := c.sent ++ (timerStep env c.mem c.timer).2.2 }

/-- An interleaving of the two threads: a schedule of actions, run in order. -/
def fineRun (c : FineConfig) : List FineAction → Option FineConfig
  | [] => some c
  | a :: rest =>
    match fineStep c a with
    | none => none
    | some c1 => fineRun c1 rest

/-- Both threads outside their functions, nothing sent, no call begun. -/
def fineInitial (s : State) : FineConfig :=
  { mem := s, writer := WriterPc.idle, timer := TimerPc.idle, sent := [], writes := [] }

/-- How the values that the timer thread has read relate to the report in
memory, `history` being the records the report can hold as a whole. -/
def timerProgress (rep : MousePositionReport) (history : List MousePositionReport) :
    TimerPc → Prop
  | TimerPc.readHeight w => w = rep.windowWidth
  | TimerPc.readX w h => w = rep.windowWidth ∧ h = rep.windowHeight
  | TimerPc.readY w h x => w = rep.windowWidth ∧ h = rep.windowHeight ∧ x = rep.x
  | TimerPc.unlock snap => snap = rep
  | TimerPc.send snap => snap ∈ history
  | _ => True

/-- What holds in every configuration reached from `fineInitial s0` with the
lock free.  The lock is held exactly while one thread is in its critical
section, and never by both.  The record of the call in progress is among the
calls begun.  Outside the event thread's critical section the report in memory
is, as a whole, the initial report or the record of one call.  What the timer
thread has read agrees with the report while it holds the lock, and a snapshot
it keeps after unlocking is such a whole record.  Every position command sent
was built from such a whole record. -/
structure FineReached (s0 : State) (c : FineConfig) : Prop where
  lockHeld : c.mem.m_MousePositionLock = 0 ↔
    (c.writer.inSection = false ∧ c.timer.inSection = false)
  exclusive : c.writer.inSection = false ∨ c.timer.inSection = false
  args : ∀ a, c.writer.args = some a → a ∈ c.writes
  wprogress : writerProgress c.mem.m_MousePositionReport c.writer
  tprogress : timerProgress c.mem.m_MousePositionReport
    (s0.m_MousePositionReport :: c.writes) c.timer
  whole : c.writer.inSection = false →
    c.mem.m_MousePositionReport ∈ s0.m_MousePositionReport :: c.writes
  stream : c.mem.m_StreamWidth = s0.m_StreamWidth ∧ c.mem.m_StreamHeight = s0.m_StreamHeight
  sentWhole : ∀ cmd ∈ c.sent, cmd.isPosition = true →
    ∃ r ∈ s0.m_MousePositionReport :: c.writes,
      cmd = positionCommand s0.m_StreamWidth s0.m_StreamHeight r

/-- An interleaving from `reportState 1 2 640 480`: the event thread begins to
write `(900, 450)` in a `1600x900` window, a first tick finds the lock held, the
event thread finishes, and a second tick takes the lock and reads all four
fields. -/
def tornSchedule : List FineAction :=
  [FineAction.call sampleEnv 900 450, FineAction.write, FineAction.write, FineAction.write,
   FineAction.timer sampleEnv, FineAction.timer sampleEnv, FineAction.timer sampleEnv,
   FineAction.write, FineAction.write, FineAction.write,
   FineAction.timer sampleEnv, FineAction.timer sampleEnv, FineAction.write,
   FineAction.timer sampleEnv, FineAction.timer sampleEnv, FineAction.timer sampleEnv,
   FineAction.timer sampleEnv, FineAction.timer sampleEnv, FineAction.timer sampleEnv]

/-- The configuration that `tornSchedule` leads to from `reportState 1 2 640 480`. -/
def tornConfig : FineConfig :=
  (fineRun (fineInitial (reportState 1 2 640 480)) tornSchedule).getD
    (fineInitial (reportState 1 2 640 480))

/-! ## Capture gate and button handling -/

/-- C1. From any state with capture inactive, a non-synthetic left-button press
sends nothing and leaves the state (capture still inactive) as it was; the
matching left-button release after it sends nothing either and ends with
capture active. -/
theorem capture_acquisition (s : State) (press release : SDL_MouseButtonEvent)
    (hs : isCaptureActive s = false)
    (hp : press.which ≠ SDL_TOUCH_MOUSEID ∧ press.button = SDL_BUTTON_LEFT ∧
      press.state = SDL_PRESSED)
    (hr : release.which ≠ SDL_TOUCH_MOUSEID ∧ release.button = SDL_BUTTON_LEFT ∧
      release.state = SDL_RELEASED) :
    handleMouseButtonEvent s press = (s, []) ∧
    isCaptureActive (handleMouseButtonEvent s press).1 = false ∧
    (handleMouseButtonEvent (handleMouseButtonEvent s press).1 release).2 = [] ∧
    isCaptureActive (handleMouseButtonEvent (handleMouseButtonEvent s press).1 release).1
      = true := by
  obtain ⟨hp1, hp2, hp3⟩ := hp
  obtain ⟨hr1, hr2, hr3⟩ := hr
  have h1 : handleMouseButtonEvent s press = (s, []) := by
    simp [handleMouseButtonEvent, hs, hp1, hp2, hp3]
  have h2 : handleMouseButtonEvent s release = (setCaptureActive s true, []) := by
    simp [handleMouseButtonEvent, hs, hr1, hr2, hr3]
  rw [h1, h2]
  exact ⟨rfl, hs, rfl, rfl⟩

/-- Witness of C1 on `idleState`. -/
theorem capture_acquisition_witness :
    isCaptureActive idleState = false ∧
    handleMouseButtonEvent idleState (buttonEvent SDL_BUTTON_LEFT SDL_PRESSED)
      = (idleState, []) ∧
    isCaptureActive (handleMouseButtonEvent idleState
      (buttonEvent SDL_BUTTON_LEFT SDL_PRESSED)).1 = false ∧
    (handleMouseButtonEvent (handleMouseButtonEvent idleState
      (buttonEvent SDL_BUTTON_LEFT SDL_PRESSED)).1
      (buttonEvent SDL_BUTTON_LEFT SDL_RELEASED)).2 = [] ∧
    isCaptureActive (handleMouseButtonEvent (handleMouseButtonEvent idleState
      (buttonEvent SDL_BUTTON_LEFT SDL_PRESSED)).1
      (buttonEvent SDL_BUTTON_LEFT SDL_RELEASED)).1 = true :=
  ⟨by decide,
   capture_acquisition idleState (buttonEvent SDL_BUTTON_LEFT SDL_PRESSED)
     (buttonEvent SDL_BUTTON_LEFT SDL_RELEASED) (by decide) (by decide) (by decide)⟩

/-- C2. While capture is inactive no handler sends a command, and the delta
accumulators, the position report and its updated flag keep their values: the
button handler may only change the capture flag, the motion and wheel handlers
return the state as it was. -/
theorem inactive_gate (env : Env) (s : State) (hs : isCaptureActive s = false)
    (b : SDL_MouseButtonEvent) (m : SDL_MouseMotionEvent) (w : SDL_MouseWheelEvent) :
    ((handleMouseButtonEvent s b).2 = [] ∧
      (handleMouseButtonEvent s b).1.m_MouseDeltaX = s.m_MouseDeltaX ∧
      (handleMouseButtonEvent s b).1.m_MouseDeltaY = s.m_MouseDeltaY ∧
      (handleMouseButtonEvent s b).1.m_MousePositionReport = s.m_MousePositionReport ∧
      (handleMouseButtonEvent s b).1.m_MousePositionUpdated = s.m_MousePositionUpdated) ∧
    handleMouseMotionEvent env s m = some (s, []) ∧
    handleMouseWheelEvent s w = (s, []) := by
  refine ⟨?_, ?_, ?_⟩
  · by_cases hsyn : b.which = SDL_TOUCH_MOUSEID
    · simp [handleMouseButtonEvent, hsyn]
    · by_cases hrel : b.button = SDL_BUTTON_LEFT ∧ b.state = SDL_RELEASED
      · simp [handleMouseButtonEvent, hsyn, hs, hrel, setCaptureActive]
      · simp [handleMouseButtonEvent, hsyn, hs, hrel]
  · simp [handleMouseMotionEvent, hs]
  · simp [handleMouseWheelEvent, hs]

/-- Witness of C2 on `idleState`, with a left-button release, a motion and a
wheel event. -/
theorem inactive_gate_witness :
    isCaptureActive idleState = false ∧
    ((handleMouseButtonEvent idleState (buttonEvent SDL_BUTTON_LEFT SDL_RELEASED)).2 = [] ∧
      (handleMouseButtonEvent idleState (buttonEvent SDL_BUTTON_LEFT SDL_RELEASED)).1.m_MouseDeltaX
        = idleState.m_MouseDeltaX ∧
      (handleMouseButtonEvent idleState (buttonEvent SDL_BUTTON_LEFT SDL_RELEASED)).1.m_MouseDeltaY
        = idleState.m_MouseDeltaY ∧
      (handleMouseButtonEvent idleState
        (buttonEvent SDL_BUTTON_LEFT SDL_RELEASED)).1.m_MousePositionReport
        = idleState.m_MousePositionReport ∧
      (handleMouseButtonEvent idleState
        (buttonEvent SDL_BUTTON_LEFT SDL_RELEASED)).1.m_MousePositionUpdated
        = idleState.m_MousePositionUpdated) ∧
    handleMouseMotionEvent sampleEnv idleState (motionEvent 3 4) = some (idleState, []) ∧
    handleMouseWheelEvent idleState (wheelEvent 2) = (idleState, []) :=
  ⟨by decide,
   inactive_gate sampleEnv idleState (by decide) (buttonEvent SDL_BUTTON_LEFT SDL_RELEASED)
     (motionEvent 3 4) (wheelEvent 2)⟩

/-- C3. An event whose source id is `SDL_TOUCH_MOUSEID` is ignored by all
three handlers in every state: nothing is sent and the state, capture flag
included, is returned as it was. -/
theorem synthetic_ignored (env : Env) (s : State)
    (b : SDL_MouseButtonEvent) (m : SDL_MouseMotionEvent) (w : SDL_MouseWheelEvent)
    (hb : b.which = SDL_TOUCH_MOUSEID) (hm : m.which = SDL_TOUCH_MOUSEID)
    (hw : w.which = SDL_TOUCH_MOUSEID) :
    handleMouseButtonEvent s b = (s, []) ∧
    handleMouseMotionEvent env s m = some (s, []) ∧
    handleMouseWheelEvent s w = (s, []) := by
  refine ⟨?_, ?_, ?_⟩
  · simp [handleMouseButtonEvent, hb]
  · simp [handleMouseMotionEvent, hm]
  · simp [handleMouseWheelEvent, hw]

/-- Witness of C3: a synthetic left-button release while inactive does not
acquire capture; synthetic motion and wheel while active change nothing. -/
theorem synthetic_ignored_witness :
    (touchButtonEvent SDL_BUTTON_LEFT SDL_RELEASED).which = SDL_TOUCH_MOUSEID ∧
    handleMouseButtonEvent idleState (touchButtonEvent SDL_BUTTON_LEFT SDL_RELEASED)
      = (idleState, []) ∧
    handleMouseMotionEvent sampleEnv idleState
      { motionEvent 3 4 with which := SDL_TOUCH_MOUSEID } = some (idleState, []) ∧
    handleMouseWheelEvent idleState { wheelEvent 2 with which := SDL_TOUCH_MOUSEID }
      = (idleState, []) :=
  ⟨by decide,
   synthetic_ignored sampleEnv idleState (touchButtonEvent SDL_BUTTON_LEFT SDL_RELEASED)
     { motionEvent 3 4 with which := SDL_TOUCH_MOUSEID }
     { wheelEvent 2 with which := SDL_TOUCH_MOUSEID } (by decide) (by decide) (by decide)⟩

/-- C4. While capture is active, a non-synthetic event for one of the five
recognized buttons sends exactly one button command and returns the state as it
was: the button is `BUTTON_LEFT`, `BUTTON_MIDDLE`, `BUTTON_RIGHT`, `BUTTON_X1`
or `BUTTON_X2` for the local button of the same name, the action is
`BUTTON_ACTION_PRESS` when the event state is `SDL_PRESSED` and
`BUTTON_ACTION_RELEASE` for any other event state; the two actions differ and
the five protocol buttons are pairwise distinct. -/
theorem button_mapping (s : State) (e : SDL_MouseButtonEvent)
    (hact : isCaptureActive s = true) (hsyn : e.which ≠ SDL_TOUCH_MOUSEID) :
    (e.state = SDL_PRESSED →
      (e.button = SDL_BUTTON_LEFT →
        handleMouseButtonEvent s e = (s, [Cmd.button BUTTON_ACTION_PRESS BUTTON_LEFT])) ∧
      (e.button = SDL_BUTTON_MIDDLE →
        handleMouseButtonEvent s e = (s, [Cmd.button BUTTON_ACTION_PRESS BUTTON_MIDDLE])) ∧
      (e.button = SDL_BUTTON_RIGHT →
        handleMouseButtonEvent s e = (s, [Cmd.button BUTTON_ACTION_PRESS BUTTON_RIGHT])) ∧
      (e.button = SDL_BUTTON_X1 →
        handleMouseButtonEvent s e = (s, [Cmd.button BUTTON_ACTION_PRESS BUTTON_X1])) ∧
      (e.button = SDL_BUTTON_X2 →
        handleMouseButtonEvent s e = (s, [Cmd.button BUTTON_ACTION_PRESS BUTTON_X2]))) ∧
    (e.state ≠ SDL_PRESSED →
      (e.button = SDL_BUTTON_LEFT →
        handleMouseButtonEvent s e = (s, [Cmd.button BUTTON_ACTION_RELEASE BUTTON_LEFT])) ∧
      (e.button = SDL_BUTTON_MIDDLE →
        handleMouseButtonEvent s e = (s, [Cmd.button BUTTON_ACTION_RELEASE BUTTON_MIDDLE])) ∧
      (e.button = SDL_BUTTON_RIGHT →
        handleMouseButtonEvent s e = (s, [Cmd.button BUTTON_ACTION_RELEASE BUTTON_RIGHT])) ∧
      (e.button = SDL_BUTTON_X1 →
        handleMouseButtonEvent s e = (s, [Cmd.button BUTTON_ACTION_RELEASE BUTTON_X1])) ∧
      (e.button = SDL_BUTTON_X2 →
        handleMouseButtonEvent s e = (s, [Cmd.button BUTTON_ACTION_RELEASE BUTTON_X2]))) ∧
    BUTTON_ACTION_PRESS ≠ BUTTON_ACTION_RELEASE ∧
    [BUTTON_LEFT, BUTTON_MIDDLE, BUTTON_RIGHT, BUTTON_X1, BUTTON_X2].Nodup := by
  refine ⟨fun hst => ⟨?_, ?_, ?_, ?_, ?_⟩, fun hst => ⟨?_, ?_, ?_, ?_, ?_⟩, by decide, by decide⟩ <;>
    intro hb <;>
    simp [handleMouseButtonEvent, LiSendMouseButtonEvent, hact, hsyn, hb, hst]

/-- Witness of C4: a right-button press while captured. -/
theorem button_mapping_witness :
    (isCaptureActive capturedState = true ∧
      (buttonEvent SDL_BUTTON_RIGHT SDL_PRESSED).which ≠ SDL_TOUCH_MOUSEID) ∧
    handleMouseButtonEvent capturedState (buttonEvent SDL_BUTTON_RIGHT SDL_PRESSED)
      = (capturedState, [Cmd.button BUTTON_ACTION_PRESS BUTTON_RIGHT]) :=
  ⟨by decide,
   (button_mapping capturedState (buttonEvent SDL_BUTTON_RIGHT SDL_PRESSED)
     (by decide) (by decide)).1 (by decide) |>.2.2.1 (by decide)⟩

/-- C5. A button event whose button is none of the five recognized ones sends
nothing and returns the state as it was, in every state: capture active or
not, synthetic source or not. -/
theorem unrecognized_button (s : State) (e : SDL_MouseButtonEvent)
    (hb : e.button ≠ SDL_BUTTON_LEFT ∧ e.button ≠ SDL_BUTTON_MIDDLE ∧
      e.button ≠ SDL_BUTTON_RIGHT ∧ e.button ≠ SDL_BUTTON_X1 ∧ e.button ≠ SDL_BUTTON_X2) :
    handleMouseButtonEvent s e = (s, []) := by
  obtain ⟨h1, h2, h3, h4, h5⟩ := hb
  by_cases hsyn : e.which = SDL_TOUCH_MOUSEID
  · simp [handleMouseButtonEvent, hsyn]
  · cases hact : isCaptureActive s <;>
      simp [handleMouseButtonEvent, hsyn, hact, h1, h2, h3, h4, h5]

/-- Witness of C5: button `6` pressed while captured. -/
theorem unrecognized_button_witness :
    ((6 : Nat) ≠ SDL_BUTTON_LEFT ∧ (6 : Nat) ≠ SDL_BUTTON_MIDDLE ∧
      (6 : Nat) ≠ SDL_BUTTON_RIGHT ∧ (6 : Nat) ≠ SDL_BUTTON_X1 ∧ (6 : Nat) ≠ SDL_BUTTON_X2) ∧
    handleMouseButtonEvent capturedState (buttonEvent 6 SDL_PRESSED) = (capturedState, []) :=
  ⟨by decide, unrecognized_button capturedState (buttonEvent 6 SDL_PRESSED) (by decide)⟩

/-! ## Narrowing lemmas -/

theorem toShort_toInt32_add (a b : Int) : toShort (toInt32 a + b) = toShort (a + b) := by
  unfold toShort toInt32
  simp only
  split <;> split <;> split <;> omega

theorem toShort_toShort (v : Int) : toShort (toShort v) = toShort v := by
  unfold toShort
  simp only
  split <;> split <;> omega

theorem toInt32_of_fits (v : Int) (h0 : -2147483648 ≤ v) (h1 : v ≤ 2147483647) :
    toInt32 v = v := by
  unfold toInt32
  simp only
  split <;> omega

theorem toShort_of_fits (v : Int) (h0 : 0 ≤ v) (h1 : v ≤ 32767) : toShort v = v := by
  unfold toShort
  simp only
  split <;> omega

/-! ## The delta accumulator -/

/-- What a run of non-synthetic motion events does while captured in relative
mode: every call returns, nothing is sent, only the two accumulators change,
and each accumulator is congruent modulo `2^16` to its old value plus the exact
sum of the deltas. -/
theorem handleMouseMotionEvents_relative (env : Env) (es : List SDL_MouseMotionEvent) :
    ∀ s : State, isCaptureActive s = true → s.m_AbsoluteMouseMode = false →
      (∀ e ∈ es, e.which ≠ SDL_TOUCH_MOUSEID) →
      ∃ dx dy : Int,
        handleMouseMotionEvents env s es
          = some ({ s with m_MouseDeltaX := dx, m_MouseDeltaY := dy }, []) ∧
        toShort dx = toShort (s.m_MouseDeltaX + (es.map (fun e => e.xrel)).sum) ∧
        toShort dy = toShort (s.m_MouseDeltaY + (es.map (fun e => e.yrel)).sum) := by
  induction es with
  | nil =>
    intro s _ _ _
    exact ⟨s.m_MouseDeltaX, s.m_MouseDeltaY, by simp [handleMouseMotionEvents], by simp, by simp⟩
  | cons e es ih =>
    intro s hact hrel hsyn
    have he : e.which ≠ SDL_TOUCH_MOUSEID := hsyn e (List.mem_cons_self _ _)
    have hstep : handleMouseMotionEvent env s e
        = some ({ s with m_MouseDeltaX := toInt32 (s.m_MouseDeltaX + e.xrel),
                         m_MouseDeltaY := toInt32 (s.m_MouseDeltaY + e.yrel) }, []) := by
      simp [handleMouseMotionEvent, hact, hrel, he, SDL_AtomicAdd]
    obtain ⟨dx, dy, hrun, hx, hy⟩ :=
      ih { s with m_MouseDeltaX := toInt32 (s.m_MouseDeltaX + e.xrel),
                  m_MouseDeltaY := toInt32 (s.m_MouseDeltaY + e.yrel) }
        hact hrel (fun e1 h1 => hsyn e1 (List.mem_cons_of_mem _ h1))
    refine ⟨dx, dy, ?_, ?_, ?_⟩
    · simp [handleMouseMotionEvents, hstep, hrun]
    · rw [hx]
      simp only [List.map_cons, List.sum_cons]
      rw [toShort_toInt32_add, add_assoc]
    · rw [hy]
      simp only [List.map_cons, List.sum_cons]
      rw [toShort_toInt32_add, add_assoc]

/-- The position part of the timer callback sends no relative move. -/
theorem drainMousePosition_no_move (s : State) :
    (drainMousePosition s).2.filter Cmd.isMove = [] := by
  unfold drainMousePosition
  simp only
  split
  · split <;> simp [LiSendMousePositionEvent, Cmd.isMove]
  · simp

/-- The relative moves that one timer tick sends: one move carrying both
accumulators narrowed to `short` when either narrowed value is non-zero, none
otherwise. -/
theorem mouseMoveTimerCallback_moves (env : Env) (s : State) :
    (mouseMoveTimerCallback env s).cmds.filter Cmd.isMove
      = if toShort s.m_MouseDeltaX ≠ 0 ∨ toShort s.m_MouseDeltaY ≠ 0 then
          [Cmd.move (toShort s.m_MouseDeltaX) (toShort s.m_MouseDeltaY)]
        else [] := by
  simp only [mouseMoveTimerCallback, List.filter_append, drainMousePosition_no_move,
    List.append_nil]
  unfold drainMouseDelta
  simp only [SDL_AtomicSet]
  split <;> simp [LiSendMouseMoveEvent, Cmd.isMove, toShort_toShort]

/-- C6, as stated, fails: two motion events whose deltas cancel, handled while
captured in relative mode from drained accumulators, are followed by a tick
that sends no command, not the single move `(0, 0)` that the sum would give. -/
theorem accumulator_zero_sum_counterexample :
    isCaptureActive capturedState = true ∧ capturedState.m_AbsoluteMouseMode = false ∧
    capturedState.m_MouseDeltaX = 0 ∧ capturedState.m_MouseDeltaY = 0 ∧
    (handleMouseMotionEvents sampleEnv capturedState
        [motionEvent 5 3, motionEvent (-5) (-3)]).map
      (fun r => (mouseMoveTimerCallback sampleEnv r.1).cmds) = some [] ∧
    (handleMouseMotionEvents sampleEnv capturedState
        [motionEvent 5 3, motionEvent (-5) (-3)]).map
      (fun r => (mouseMoveTimerCallback sampleEnv r.1).cmds.filter Cmd.isMove)
      ≠ some [Cmd.move (toShort (5 + -5)) (toShort (3 + -3))] := by
  decide

/-- C6, amended. A run of non-synthetic motion events handled while captured in
relative mode from zero accumulators returns with nothing sent, and the next
tick sends, as its only relative move, the exact sums of the deltas reduced
modulo `2^16` and read as signed 16-bit values, provided one of the two reduced
sums is non-zero; when both are zero the tick sends no relative move. -/
theorem accumulator_correctness (env : Env) (s : State) (es : List SDL_MouseMotionEvent)
    (hact : isCaptureActive s = true) (hrel : s.m_AbsoluteMouseMode = false)
    (hx : s.m_MouseDeltaX = 0) (hy : s.m_MouseDeltaY = 0)
    (hsyn : ∀ e ∈ es, e.which ≠ SDL_TOUCH_MOUSEID) :
    ∃ s1 : State,
      handleMouseMotionEvents env s es = some (s1, []) ∧
      (mouseMoveTimerCallback env s1).cmds.filter Cmd.isMove
        = if toShort (es.map (fun e => e.xrel)).sum ≠ 0 ∨
             toShort (es.map (fun e => e.yrel)).sum ≠ 0 then
            [Cmd.move (toShort (es.map (fun e => e.xrel)).sum)
              (toShort (es.map (fun e => e.yrel)).sum)]
          else [] := by
  obtain ⟨dx, dy, hrun, hdx, hdy⟩ := handleMouseMotionEvents_relative env es s hact hrel hsyn
  refine ⟨_, hrun, ?_⟩
  rw [mouseMoveTimerCallback_moves]
  simp only [hdx, hdy, hx, hy, zero_add]

/-- Witness of C6, amended: deltas `30000` and `10000` sum to `40000`, which is
sent as `40000 - 65536 = -25536`: truncated, not saturated. -/
theorem accumulator_correctness_witness :
    (isCaptureActive capturedState = true ∧ capturedState.m_AbsoluteMouseMode = false ∧
      capturedState.m_MouseDeltaX = 0 ∧ capturedState.m_MouseDeltaY = 0 ∧
      ∀ e ∈ [motionEvent 30000 0, motionEvent 10000 1], e.which ≠ SDL_TOUCH_MOUSEID) ∧
    ∃ s1 : State,
      handleMouseMotionEvents sampleEnv capturedState
        [motionEvent 30000 0, motionEvent 10000 1] = some (s1, []) ∧
      (mouseMoveTimerCallback sampleEnv s1).cmds.filter Cmd.isMove = [Cmd.move (-25536) 1] :=
  ⟨by decide,
   accumulator_correctness sampleEnv capturedState [motionEvent 30000 0, motionEvent 10000 1]
     (by decide) (by decide) (by decide) (by decide) (by decide)⟩

/-! ## The video region -/

/-- Truncating division of a non-negative value by a positive one is the
floor: `q * b ≤ a < (q + 1) * b`. -/
theorem tdiv_floor (a b : Int) (ha : 0 ≤ a) (hb : 0 < b) :
    0 ≤ Int.tdiv a b ∧ Int.tdiv a b * b ≤ a ∧ a < (Int.tdiv a b + 1) * b := by
  rw [Int.tdiv_eq_ediv ha (le_of_lt hb)]
  exact ⟨Int.ediv_nonneg ha (le_of_lt hb), Int.ediv_mul_le a (ne_of_gt hb),
    Int.lt_ediv_add_one_mul_self a hb⟩

/-- Halving a non-negative slack splits it into two margins that differ by at
most one. -/
theorem tdiv_two_split (a : Int) (ha : 0 ≤ a) :
    0 ≤ Int.tdiv a 2 ∧ Int.tdiv a 2 ≤ a - Int.tdiv a 2 ∧ a - Int.tdiv a 2 ≤ Int.tdiv a 2 + 1 := by
  rw [Int.tdiv_eq_ediv ha (by norm_num)]
  omega

/-- C8. For a source and a destination with positive sizes the scaled
rectangle lies inside the destination, its margins on opposite sides differ by
at most one pixel (centered), it spans the full destination height or the full
destination width (maximal), and the other dimension is the floor of what the
source aspect ratio asks for (aspect ratio kept up to integer rounding).  For
`800x600` into `1600x900` it is `x=200, y=0, w=1200, h=900`. -/
theorem region_mapping (src dst : SDL_Rect)
    (hsrc : 0 < src.w ∧ 0 < src.h) (hdst : 0 < dst.w ∧ 0 < dst.h) :
    -- contained
    (dst.x ≤ (scaleSourceToDestinationSurface src dst).x ∧
      dst.y ≤ (scaleSourceToDestinationSurface src dst).y ∧
      0 ≤ (scaleSourceToDestinationSurface src dst).w ∧
      0 ≤ (scaleSourceToDestinationSurface src dst).h ∧
      (scaleSourceToDestinationSurface src dst).x + (scaleSourceToDestinationSurface src dst).w
        ≤ dst.x + dst.w ∧
      (scaleSourceToDestinationSurface src dst).y + (scaleSourceToDestinationSurface src dst).h
        ≤ dst.y + dst.h) ∧
    -- centered
    ((scaleSourceToDestinationSurface src dst).x - dst.x
        ≤ (dst.x + dst.w) - ((scaleSourceToDestinationSurface src dst).x +
            (scaleSourceToDestinationSurface src dst).w) ∧
      (dst.x + dst.w) - ((scaleSourceToDestinationSurface src dst).x +
            (scaleSourceToDestinationSurface src dst).w)
        ≤ (scaleSourceToDestinationSurface src dst).x - dst.x + 1 ∧
      (scaleSourceToDestinationSurface src dst).y - dst.y
        ≤ (dst.y + dst.h) - ((scaleSourceToDestinationSurface src dst).y +
            (scaleSourceToDestinationSurface src dst).h) ∧
      (dst.y + dst.h) - ((scaleSourceToDestinationSurface src dst).y +
            (scaleSourceToDestinationSurface src dst).h)
        ≤ (scaleSourceToDestinationSurface src dst).y - dst.y + 1) ∧
    -- maximal, with the source aspect ratio up to rounding
    (((scaleSourceToDestinationSurface src dst).h = dst.h ∧
        (scaleSourceToDestinationSurface src dst).w * src.h ≤ dst.h * src.w ∧
        dst.h * src.w < ((scaleSourceToDestinationSurface src dst).w + 1) * src.h) ∨
      ((scaleSourceToDestinationSurface src dst).w = dst.w ∧
        (scaleSourceToDestinationSurface src dst).h * src.w ≤ dst.w * src.h ∧
        dst.w * src.h < ((scaleSourceToDestinationSurface src dst).h + 1) * src.w)) ∧
    -- the example of the spec
    scaleSourceToDestinationSurface { x := 0, y := 0, w := 800, h := 600 }
        { x := 0, y := 0, w := 1600, h := 900 }
      = { x := 200, y := 0, w := 1200, h := 900 } := by
  obtain ⟨hsw, hsh⟩ := hsrc
  obtain ⟨hdw, hdh⟩ := hdst
  obtain ⟨hH0, hH1, hH2⟩ := tdiv_floor (dst.w * src.h) src.w
    (mul_nonneg (le_of_lt hdw) (le_of_lt hsh)) hsw
  obtain ⟨hW0, hW1, hW2⟩ := tdiv_floor (dst.h * src.w) src.h
    (mul_nonneg (le_of_lt hdh) (le_of_lt hsw)) hsh
  refine ⟨?_, ?_, ?_, by decide⟩
  all_goals
    unfold scaleSourceToDestinationSurface
    simp only
    split
    · rename_i hgt
      -- pillarbox: the full width would be too high
      have hle : Int.tdiv (dst.h * src.w) src.h ≤ dst.w := by
        have h1 : (dst.h + 1) * src.w ≤ Int.tdiv (dst.w * src.h) src.w * src.w :=
          mul_le_mul_of_nonneg_right (by omega) (le_of_lt hsw)
        have h2 : Int.tdiv (dst.h * src.w) src.h * src.h < dst.w * src.h := by nlinarith
        exact le_of_lt (lt_of_mul_lt_mul_right h2 (le_of_lt hsh))
      obtain ⟨m0, m1, m2⟩ := tdiv_two_split (dst.w - Int.tdiv (dst.h * src.w) src.h) (by omega)
      first
        | exact Or.inl ⟨rfl, hW1, hW2⟩
        | (simp only; omega)
    · rename_i hgt
      -- letterbox: the full width fits
      obtain ⟨m0, m1, m2⟩ := tdiv_two_split (dst.h - Int.tdiv (dst.w * src.h) src.w) (by omega)
      first
        | exact Or.inr ⟨rfl, hH1, hH2⟩
        | (simp only; omega)

/-- Witness of C8: a `1920x1080` stream in a `1000x1000` window at `(10, 20)`
is letterboxed to `1000x562` with `219` pixels above and below. -/
theorem region_mapping_witness :
    ((0 : Int) < 1920 ∧ (0 : Int) < 1080) ∧ ((0 : Int) < 1000 ∧ (0 : Int) < 1000) ∧
    scaleSourceToDestinationSurface { x := 0, y := 0, w := 1920, h := 1080 }
        { x := 10, y := 20, w := 1000, h := 1000 }
      = { x := 10, y := 239, w := 1000, h := 562 } ∧
    (scaleSourceToDestinationSurface { x := 0, y := 0, w := 1920, h := 1080 }
        { x := 10, y := 20, w := 1000, h := 1000 }).y - 20
      ≤ (20 + 1000) - ((scaleSourceToDestinationSurface { x := 0, y := 0, w := 1920, h := 1080 }
        { x := 10, y := 20, w := 1000, h := 1000 }).y +
        (scaleSourceToDestinationSurface { x := 0, y := 0, w := 1920, h := 1080 }
        { x := 10, y := 20, w := 1000, h := 1000 }).h) :=
  ⟨by decide, by decide, by decide,
   (region_mapping { x := 0, y := 0, w := 1920, h := 1080 }
      { x := 10, y := 20, w := 1000, h := 1000 } (by decide) (by decide)).2.1.2.2.1⟩

/-- C9. With a non-negative window size supplied, the hit test is true exactly
when the point lies in the closed rectangle `x0 ≤ px ≤ x0 + w`,
`y0 ≤ py ≤ y0 + h` of the region that the stream size is mapped to inside
`(0, 0, windowWidth, windowHeight)`.  For an `800x600` stream in a `1600x900`
window, `(100, 100)` is outside, `(900, 450)` is inside, and both corners of
the region are inside. -/
theorem hit_test (env : Env) (s : State) (px py windowWidth windowHeight : Int)
    (hw : 0 ≤ windowWidth) (hh : 0 ≤ windowHeight) :
    (isMouseInVideoRegion env s px py windowWidth windowHeight = true ↔
      (scaleSourceToDestinationSurface
          { x := 0, y := 0, w := s.m_StreamWidth, h := s.m_StreamHeight }
          { x := 0, y := 0, w := windowWidth, h := windowHeight }).x ≤ px ∧
      px ≤ (scaleSourceToDestinationSurface
          { x := 0, y := 0, w := s.m_StreamWidth, h := s.m_StreamHeight }
          { x := 0, y := 0, w := windowWidth, h := windowHeight }).x +
        (scaleSourceToDestinationSurface
          { x := 0, y := 0, w := s.m_StreamWidth, h := s.m_StreamHeight }
          { x := 0, y := 0, w := windowWidth, h := windowHeight }).w ∧
      (scaleSourceToDestinationSurface
          { x := 0, y := 0, w := s.m_StreamWidth, h := s.m_StreamHeight }
          { x := 0, y := 0, w := windowWidth, h := windowHeight }).y ≤ py ∧
      py ≤ (scaleSourceToDestinationSurface
          { x := 0, y := 0, w := s.m_StreamWidth, h := s.m_StreamHeight }
          { x := 0, y := 0, w := windowWidth, h := windowHeight }).y +
        (scaleSourceToDestinationSurface
          { x := 0, y := 0, w := s.m_StreamWidth, h := s.m_StreamHeight }
          { x := 0, y := 0, w := windowWidth, h := windowHeight }).h) ∧
    isMouseInVideoRegion sampleEnv idleState 100 100 1600 900 = false ∧
    isMouseInVideoRegion sampleEnv idleState 900 450 1600 900 = true ∧
    isMouseInVideoRegion sampleEnv idleState 200 0 1600 900 = true ∧
    isMouseInVideoRegion sampleEnv idleState 1400 900 1600 900 = true ∧
    isMouseInVideoRegion sampleEnv idleState 1401 900 1600 900 = false := by
  refine ⟨?_, by decide, by decide, by decide, by decide, by decide⟩
  have hsize : ¬ (windowWidth < 0 ∨ windowHeight < 0) := by omega
  simp only [isMouseInVideoRegion, videoRegion, hsize, if_false, Bool.and_eq_true,
    decide_eq_true_eq, ge_iff_le]
  tauto

/-- Witness of C9: the point `(199, 450)` is one pixel left of the region of an
`800x600` stream in a `1600x900` window, so the equivalence gives `false`. -/
theorem hit_test_witness :
    ((0 : Int) ≤ 1600 ∧ (0 : Int) ≤ 900) ∧
    ¬ (isMouseInVideoRegion sampleEnv idleState 199 450 1600 900 = true) :=
  ⟨by decide,
   fun h => absurd
     (((hit_test sampleEnv idleState 199 450 1600 900 (by decide) (by decide)).1.1 h).1)
     (by decide)⟩

/-! ## The position report on the timer side -/

/-- The Windows-only part of the timer callback touches no member other than
`m_PendingMouseLeaveButtonUp`. -/
theorem pendingMouseLeaveButtonUp_state (env : Env) (s : State) :
    ∃ p : Int, (pendingMouseLeaveButtonUp env s).1 = { s with m_PendingMouseLeaveButtonUp := p } := by
  unfold pendingMouseLeaveButtonUp
  split
  · split
    · exact ⟨0, rfl⟩
    · exact ⟨s.m_PendingMouseLeaveButtonUp, rfl⟩
  · exact ⟨s.m_PendingMouseLeaveButtonUp, rfl⟩

/-- The delta part of the timer callback zeroes both accumulators and touches
nothing else. -/
theorem drainMouseDelta_state (s : State) :
    (drainMouseDelta s).1 = { s with m_MouseDeltaX := 0, m_MouseDeltaY := 0 } := by
  unfold drainMouseDelta
  simp only [SDL_AtomicSet]
  split <;> rfl

/-- The delta part of the timer callback sends no absolute position. -/
theorem drainMouseDelta_no_position (s : State) :
    (drainMouseDelta s).2.filter Cmd.isPosition = [] := by
  unfold drainMouseDelta
  simp only
  split <;> simp [LiSendMouseMoveEvent, Cmd.isPosition]

/-- The position part of the timer callback when a report is pending and the
lock is free: the flag is cleared, the lock is free again, and one position is
sent, clamped into the region of the reported window size and narrowed to
`short` together with the region size. -/
theorem drainMousePosition_pending (s : State)
    (hupd : s.m_MousePositionUpdated ≠ 0) (hlock : s.m_MousePositionLock = 0) :
    drainMousePosition s
      = ({ s with m_MousePositionUpdated := 0, m_MousePositionLock := 0 },
         [Cmd.position
            (toShort (min (max (s.m_MousePositionReport.x -
              (videoRegion s s.m_MousePositionReport.windowWidth
                s.m_MousePositionReport.windowHeight).x) 0)
              (videoRegion s s.m_MousePositionReport.windowWidth
                s.m_MousePositionReport.windowHeight).w))
            (toShort (min (max (s.m_MousePositionReport.y -
              (videoRegion s s.m_MousePositionReport.windowWidth
                s.m_MousePositionReport.windowHeight).y) 0)
              (videoRegion s s.m_MousePositionReport.windowWidth
                s.m_MousePositionReport.windowHeight).h))
            (toShort (videoRegion s s.m_MousePositionReport.windowWidth
                s.m_MousePositionReport.windowHeight).w)
            (toShort (videoRegion s s.m_MousePositionReport.windowWidth
                s.m_MousePositionReport.windowHeight).h)]) := by
  simp [drainMousePosition, SDL_AtomicSet, SDL_AtomicTryLock, SDL_AtomicUnlock, hupd, hlock,
    LiSendMousePositionEvent, toShort_toShort, videoRegion]

/-- The position part of the timer callback when no report is pending: nothing
is sent and the state is returned with the flag still clear. -/
theorem drainMousePosition_idle (s : State) (hupd : s.m_MousePositionUpdated = 0) :
    drainMousePosition s = (s, []) := by
  cases s
  simp_all [drainMousePosition, SDL_AtomicSet]

/-- The absolute positions that one timer tick sends are those of its position
part, run on the state with the report, flag, lock and stream size it had at
the start of the tick. -/
theorem mouseMoveTimerCallback_positions (env : Env) (s : State) :
    (mouseMoveTimerCallback env s).cmds.filter Cmd.isPosition
      = (drainMousePosition { s with m_MouseDeltaX := 0, m_MouseDeltaY := 0 }).2.filter
          Cmd.isPosition := by
  simp only [mouseMoveTimerCallback, List.filter_append, drainMouseDelta_no_position,
    List.nil_append, drainMouseDelta_state]

/-- The report, flag and lock after one timer tick are those left by its
position part. -/
theorem mouseMoveTimerCallback_report (env : Env) (s : State) :
    (mouseMoveTimerCallback env s).state.m_MousePositionReport
        = (drainMousePosition { s with m_MouseDeltaX := 0, m_MouseDeltaY := 0 }).1.m_MousePositionReport ∧
    (mouseMoveTimerCallback env s).state.m_MousePositionUpdated
        = (drainMousePosition { s with m_MouseDeltaX := 0, m_MouseDeltaY := 0 }).1.m_MousePositionUpdated ∧
    (mouseMoveTimerCallback env s).state.m_MousePositionLock
        = (drainMousePosition { s with m_MouseDeltaX := 0, m_MouseDeltaY := 0 }).1.m_MousePositionLock := by
  obtain ⟨p, hp⟩ := pendingMouseLeaveButtonUp_state env
    (drainMousePosition { s with m_MouseDeltaX := 0, m_MouseDeltaY := 0 }).1
  simp only [mouseMoveTimerCallback, drainMouseDelta_state, hp, and_self]

/-- C10, as stated, fails: for a report `(35000, 100)` taken in a `40000x30000`
window the video region of an `800x600` stream is `40000x30000` and the clamped
position is `(35000, 100)`, but the position command carries
`x = 35000 - 65536 = -30536` and the reference width `40000 - 65536 = -25536`. -/
theorem position_drain_wide_counterexample :
    (reportState 35000 100 40000 30000).m_MousePositionUpdated ≠ 0 ∧
    (reportState 35000 100 40000 30000).m_MousePositionLock = 0 ∧
    videoRegion (reportState 35000 100 40000 30000) 40000 30000
      = { x := 0, y := 0, w := 40000, h := 30000 } ∧
    min (max ((35000 : Int) - 0) 0) 40000 = 35000 ∧
    (mouseMoveTimerCallback sampleEnv (reportState 35000 100 40000 30000)).cmds
      = [Cmd.position (-30536) 100 (-25536) 30000] ∧
    (mouseMoveTimerCallback sampleEnv (reportState 35000 100 40000 30000)).cmds
      ≠ [Cmd.position 35000 100 40000 30000] := by
  decide

/-- C10, amended. When a report is pending and the lock is free, the tick sends
exactly one position command, whose reference width and height are those of the
video region of the reported window size (whatever the live window size is),
narrowed to signed 16-bit.  When the differences `px - x0` and `py - y0` fit in
a signed 32-bit `int`, so that the subtractions of lines 166-167 are exact, its
position is the reported position clamped into that region, narrowed to signed
16-bit.  The narrowing leaves a value in `0 .. 32767` as it is.  Afterwards the
flag is clear, the lock is free and the report is as it was.  When no report is
pending the tick sends no position command. -/
theorem position_drain (env : Env) (s : State) :
    (s.m_MousePositionUpdated ≠ 0 → s.m_MousePositionLock = 0 →
      (∃ x y : Int, (mouseMoveTimerCallback env s).cmds.filter Cmd.isPosition
        = [Cmd.position x y
            (toShort (videoRegion s s.m_MousePositionReport.windowWidth
                s.m_MousePositionReport.windowHeight).w)
            (toShort (videoRegion s s.m_MousePositionReport.windowWidth
                s.m_MousePositionReport.windowHeight).h)]) ∧
      (mouseMoveTimerCallback env s).state.m_MousePositionUpdated = 0 ∧
      (mouseMoveTimerCallback env s).state.m_MousePositionLock = 0 ∧
      (mouseMoveTimerCallback env s).state.m_MousePositionReport = s.m_MousePositionReport) ∧
    (s.m_MousePositionUpdated ≠ 0 → s.m_MousePositionLock = 0 →
      (-2147483648 ≤ s.m_MousePositionReport.x -
          (videoRegion s s.m_MousePositionReport.windowWidth
            s.m_MousePositionReport.windowHeight).x ∧
        s.m_MousePositionReport.x -
          (videoRegion s s.m_MousePositionReport.windowWidth
            s.m_MousePositionReport.windowHeight).x ≤ 2147483647) →
      (-2147483648 ≤ s.m_MousePositionReport.y -
          (videoRegion s s.m_MousePositionReport.windowWidth
            s.m_MousePositionReport.windowHeight).y ∧
        s.m_MousePositionReport.y -
          (videoRegion s s.m_MousePositionReport.windowWidth
            s.m_MousePositionReport.windowHeight).y ≤ 2147483647) →
      (mouseMoveTimerCallback env s).cmds.filter Cmd.isPosition
        = [Cmd.position
            (toShort (min (max (s.m_MousePositionReport.x -
              (videoRegion s s.m_MousePositionReport.windowWidth
                s.m_MousePositionReport.windowHeight).x) 0)
              (videoRegion s s.m_MousePositionReport.windowWidth
                s.m_MousePositionReport.windowHeight).w))
            (toShort (min (max (s.m_MousePositionReport.y -
              (videoRegion s s.m_MousePositionReport.windowWidth
                s.m_MousePositionReport.windowHeight).y) 0)
              (videoRegion s s.m_MousePositionReport.windowWidth
                s.m_MousePositionReport.windowHeight).h))
            (toShort (videoRegion s s.m_MousePositionReport.windowWidth
                s.m_MousePositionReport.windowHeight).w)
            (toShort (videoRegion s s.m_MousePositionReport.windowWidth
                s.m_MousePositionReport.windowHeight).h)] ∧
      toInt32 (s.m_MousePositionReport.x -
          (videoRegion s s.m_MousePositionReport.windowWidth
            s.m_MousePositionReport.windowHeight).x)
        = s.m_MousePositionReport.x -
          (videoRegion s s.m_MousePositionReport.windowWidth
            s.m_MousePositionReport.windowHeight).x ∧
      toInt32 (s.m_MousePositionReport.y -
          (videoRegion s s.m_MousePositionReport.windowWidth
            s.m_MousePositionReport.windowHeight).y)
        = s.m_MousePositionReport.y -
          (videoRegion s s.m_MousePositionReport.windowWidth
            s.m_MousePositionReport.windowHeight).y) ∧
    (s.m_MousePositionUpdated = 0 →
      (mouseMoveTimerCallback env s).cmds.filter Cmd.isPosition = []) ∧
    (∀ v : Int, 0 ≤ v → v ≤ 32767 → toShort v = v) := by
  have hcmd : s.m_MousePositionUpdated ≠ 0 → s.m_MousePositionLock = 0 →
      (mouseMoveTimerCallback env s).cmds.filter Cmd.isPosition
        = [Cmd.position
            (toShort (min (max (s.m_MousePositionReport.x -
              (videoRegion s s.m_MousePositionReport.windowWidth
                s.m_MousePositionReport.windowHeight).x) 0)
              (videoRegion s s.m_MousePositionReport.windowWidth
                s.m_MousePositionReport.windowHeight).w))
            (toShort (min (max (s.m_MousePositionReport.y -
              (videoRegion s s.m_MousePositionReport.windowWidth
                s.m_MousePositionReport.windowHeight).y) 0)
              (videoRegion s s.m_MousePositionReport.windowWidth
                s.m_MousePositionReport.windowHeight).h))
            (toShort (videoRegion s s.m_MousePositionReport.windowWidth
                s.m_MousePositionReport.windowHeight).w)
            (toShort (videoRegion s s.m_MousePositionReport.windowWidth
                s.m_MousePositionReport.windowHeight).h)] := by
    intro hupd hlock
    rw [mouseMoveTimerCallback_positions,
      drainMousePosition_pending _ (by simpa using hupd) (by simpa using hlock)]
    simp [videoRegion, Cmd.isPosition]
  refine ⟨fun hupd hlock => ⟨⟨_, _, hcmd hupd hlock⟩, ?_⟩,
    fun hupd hlock hdx hdy =>
      ⟨hcmd hupd hlock, toInt32_of_fits _ hdx.1 hdx.2, toInt32_of_fits _ hdy.1 hdy.2⟩,
    fun hupd => ?_, toShort_of_fits⟩
  · obtain ⟨h1, h2, h3⟩ := mouseMoveTimerCallback_report env s
    rw [h1, h2, h3, drainMousePosition_pending _ (by simpa using hupd) (by simpa using hlock)]
    simp
  · rw [mouseMoveTimerCallback_positions, drainMousePosition_idle _ (by simpa using hupd)]
    rfl

/-- Witness of C10, amended: the report `(900, 450)` was taken in a `1600x900`
window; the tick runs after the window has shrunk to `640x480` and still sends
the position relative to the `1200x900` region. -/
theorem position_drain_witness :
    ((reportState 900 450 1600 900).m_MousePositionUpdated ≠ 0 ∧
      (reportState 900 450 1600 900).m_MousePositionLock = 0) ∧
    (mouseMoveTimerCallback resizedEnv (reportState 900 450 1600 900)).cmds.filter
        Cmd.isPosition = [Cmd.position 700 450 1200 900] ∧
    (mouseMoveTimerCallback resizedEnv (reportState 900 450 1600 900)).state.m_MousePositionUpdated
      = 0 :=
  ⟨by decide,
   ((position_drain resizedEnv (reportState 900 450 1600 900)).2.1 (by decide) (by decide)
     (by decide) (by decide)).1,
   ((position_drain resizedEnv (reportState 900 450 1600 900)).1 (by decide) (by decide)).2.1⟩

/-! ## State after a tick -/

theorem toShort_of_int16 (v : Int) (h0 : -32768 ≤ v) (h1 : v ≤ 32767) : toShort v = v := by
  unfold toShort
  simp only
  split <;> omega

/-- The position part of the timer callback leaves every member as it was
except the updated flag, which it clears: the lock is back to free whenever it
was taken. -/
theorem drainMousePosition_state (s : State) :
    (drainMousePosition s).1 = { s with m_MousePositionUpdated := 0 } := by
  unfold drainMousePosition
  simp only [SDL_AtomicSet, SDL_AtomicTryLock, SDL_AtomicUnlock]
  split
  · by_cases hl : s.m_MousePositionLock = 0
    · simp [hl]
    · simp [hl]
  · rfl

/-- The state after one timer tick: both accumulators and the updated flag are
zero, `m_PendingMouseLeaveButtonUp` is what the Windows-only part left, every
other member is as before. -/
theorem mouseMoveTimerCallback_state (env : Env) (s : State) :
    ∃ p : Int, (mouseMoveTimerCallback env s).state
      = { s with m_MouseDeltaX := 0, m_MouseDeltaY := 0, m_MousePositionUpdated := 0,
                 m_PendingMouseLeaveButtonUp := p } := by
  simp only [mouseMoveTimerCallback, drainMousePosition_state, drainMouseDelta_state]
  exact pendingMouseLeaveButtonUp_state env _

/-- The commands of one tick are its relative moves followed by its absolute
positions. -/
theorem mouseMoveTimerCallback_cmds (env : Env) (s : State) :
    (mouseMoveTimerCallback env s).cmds
      = (mouseMoveTimerCallback env s).cmds.filter Cmd.isMove ++
        (mouseMoveTimerCallback env s).cmds.filter Cmd.isPosition := by
  have h1 : (drainMouseDelta s).2.filter Cmd.isMove = (drainMouseDelta s).2 := by
    unfold drainMouseDelta
    simp only
    split <;> simp [LiSendMouseMoveEvent, Cmd.isMove]
  have h2 : ∀ t : State, (drainMousePosition t).2.filter Cmd.isPosition
      = (drainMousePosition t).2 := by
    intro t
    unfold drainMousePosition
    simp only
    split
    · split <;> simp [LiSendMousePositionEvent, Cmd.isPosition]
    · simp
  simp only [mouseMoveTimerCallback, List.filter_append, drainMousePosition_no_move,
    drainMouseDelta_no_position, List.append_nil, List.nil_append, h1, h2]

/-! ## Writes of the position report -/

/-- `updateMousePositionReport` returns when the lock is free: the report holds
the new position with the live window size, the flag is set, the lock is free
again, nothing else changes. -/
theorem updateMousePositionReport_free (env : Env) (s : State) (mouseX mouseY : Int)
    (hlock : s.m_MousePositionLock = 0) :
    updateMousePositionReport env s mouseX mouseY
      = some { s with
          m_MousePositionReport :=
            { x := mouseX, y := mouseY,
              windowWidth := env.windowWidth, windowHeight := env.windowHeight }
          m_MousePositionLock := 0
          m_MousePositionUpdated := 1 } := by
  simp [updateMousePositionReport, SDL_AtomicLock, SDL_AtomicUnlock, SDL_AtomicSet, hlock]

/-- C11. With the lock free, two writes `(x1, y1)` in a window of size
`(w1, h1)` and then `(x2, y2)` in a window of size `(w2, h2)` both return, and
they leave the very state that the second write alone leaves.  The next tick
sends exactly one position command, built from `x2, y2, w2, h2` and the stream
size only. -/
theorem last_writer_wins (env1 env2 env : Env) (s : State) (x1 y1 x2 y2 : Int)
    (hlock : s.m_MousePositionLock = 0) :
    ∃ s1 s2 : State,
      updateMousePositionReport env1 s x1 y1 = some s1 ∧
      updateMousePositionReport env2 s1 x2 y2 = some s2 ∧
      updateMousePositionReport env2 s x2 y2 = some s2 ∧
      (mouseMoveTimerCallback env s2).cmds.filter Cmd.isPosition
        = [Cmd.position
            (toShort (min (max (x2 -
              (videoRegion s env2.windowWidth env2.windowHeight).x) 0)
              (videoRegion s env2.windowWidth env2.windowHeight).w))
            (toShort (min (max (y2 -
              (videoRegion s env2.windowWidth env2.windowHeight).y) 0)
              (videoRegion s env2.windowWidth env2.windowHeight).h))
            (toShort (videoRegion s env2.windowWidth env2.windowHeight).w)
            (toShort (videoRegion s env2.windowWidth env2.windowHeight).h)] := by
  refine ⟨_, _, updateMousePositionReport_free env1 s x1 y1 hlock,
    updateMousePositionReport_free env2 _ x2 y2 rfl, ?_, ?_⟩
  · rw [updateMousePositionReport_free env2 s x2 y2 hlock]
  · rw [mouseMoveTimerCallback_positions, drainMousePosition_pending _ (by simp) (by simp)]
    simp [videoRegion, Cmd.isPosition]

/-- Witness of C11: `(10, 20)` written in a `640x480` window, then `(900, 450)`
in a `1600x900` window; the tick sends `(700, 450)` in the `1200x900` region. -/
theorem last_writer_wins_witness :
    capturedState.m_MousePositionLock = 0 ∧
    ∃ s1 s2 : State,
      updateMousePositionReport resizedEnv capturedState 10 20 = some s1 ∧
      updateMousePositionReport sampleEnv s1 900 450 = some s2 ∧
      updateMousePositionReport sampleEnv capturedState 900 450 = some s2 ∧
      (mouseMoveTimerCallback sampleEnv s2).cmds.filter Cmd.isPosition
        = [Cmd.position 700 450 1200 900] :=
  ⟨by decide, last_writer_wins resizedEnv sampleEnv sampleEnv capturedState 10 20 900 450
    (by decide)⟩

/-! ## Wheel, capture policy, relative drain -/

/-- C12. While capture is active, a non-synthetic wheel event with vertical
delta `y ≠ 0` sends exactly one scroll command carrying `y` reduced modulo `2^8`
and read as a signed 8-bit value; with `y = 0` nothing is sent.  The state is
returned as it was in both cases. -/
theorem wheel_forwarding (s : State) (e : SDL_MouseWheelEvent)
    (hact : isCaptureActive s = true) (hsyn : e.which ≠ SDL_TOUCH_MOUSEID) :
    (e.y ≠ 0 → handleMouseWheelEvent s e
      = (s, [Cmd.scroll (if e.y % 256 < 128 then e.y % 256 else e.y % 256 - 256)])) ∧
    (e.y = 0 → handleMouseWheelEvent s e = (s, [])) := by
  refine ⟨fun hy => ?_, fun hy => ?_⟩
  · simp [handleMouseWheelEvent, hact, hsyn, hy, LiSendScrollEvent, toSChar]
  · simp [handleMouseWheelEvent, hact, hsyn, hy]

/-- Witness of C12: a wheel delta of `200` is sent as `200 - 256 = -56`. -/
theorem wheel_forwarding_witness :
    (isCaptureActive capturedState = true ∧ (wheelEvent 200).which ≠ SDL_TOUCH_MOUSEID ∧
      (wheelEvent 200).y ≠ 0) ∧
    handleMouseWheelEvent capturedState (wheelEvent 200) = (capturedState, [Cmd.scroll (-56)]) :=
  ⟨by decide, (wheel_forwarding capturedState (wheelEvent 200) (by decide) (by decide)).1
    (by decide)⟩

/-- C14. With capture inactive, a button event never sends a command, and
capture is active afterwards exactly when the event is non-synthetic, its
button is the left one and its state is released. -/
theorem capture_only_by_left_release (s : State) (e : SDL_MouseButtonEvent)
    (hs : isCaptureActive s = false) :
    (isCaptureActive (handleMouseButtonEvent s e).1 = true ↔
      (e.which ≠ SDL_TOUCH_MOUSEID ∧ e.button = SDL_BUTTON_LEFT ∧ e.state = SDL_RELEASED)) ∧
    (handleMouseButtonEvent s e).2 = [] := by
  by_cases hsyn : e.which = SDL_TOUCH_MOUSEID
  · simp [handleMouseButtonEvent, hsyn, hs]
  · by_cases hrel : e.button = SDL_BUTTON_LEFT ∧ e.state = SDL_RELEASED
    · have h1 : handleMouseButtonEvent s e = (setCaptureActive s true, []) := by
        simp [handleMouseButtonEvent, hsyn, hs, hrel]
      rw [h1]
      exact ⟨⟨fun _ => ⟨hsyn, hrel⟩, fun _ => rfl⟩, rfl⟩
    · have h1 : handleMouseButtonEvent s e = (s, []) := by
        simp [handleMouseButtonEvent, hsyn, hs, hrel]
      rw [h1]
      simp only [hs, and_true]
      constructor
      · intro h
        cases h
      · intro h
        exact absurd h.2 hrel

/-- Witness of C14: a right-button release and a left-button press while
inactive leave capture inactive. -/
theorem capture_only_by_left_release_witness :
    isCaptureActive idleState = false ∧
    isCaptureActive (handleMouseButtonEvent idleState
      (buttonEvent SDL_BUTTON_RIGHT SDL_RELEASED)).1 = false ∧
    (handleMouseButtonEvent idleState (buttonEvent SDL_BUTTON_LEFT SDL_PRESSED)).2 = [] :=
  ⟨by decide, by decide,
   (capture_only_by_left_release idleState (buttonEvent SDL_BUTTON_LEFT SDL_PRESSED)
     (by decide)).2⟩

/-- C15. One tick sends exactly one relative move, carrying both accumulators
narrowed to signed 16-bit, when at least one narrowed value is non-zero, and no
relative move when both are zero; both accumulators are zero afterwards. -/
theorem relative_drain (env : Env) (s : State) :
    ((toShort s.m_MouseDeltaX ≠ 0 ∨ toShort s.m_MouseDeltaY ≠ 0) →
      (mouseMoveTimerCallback env s).cmds.filter Cmd.isMove
        = [Cmd.move (toShort s.m_MouseDeltaX) (toShort s.m_MouseDeltaY)]) ∧
    ((toShort s.m_MouseDeltaX = 0 ∧ toShort s.m_MouseDeltaY = 0) →
      (mouseMoveTimerCallback env s).cmds.filter Cmd.isMove = []) ∧
    (mouseMoveTimerCallback env s).state.m_MouseDeltaX = 0 ∧
    (mouseMoveTimerCallback env s).state.m_MouseDeltaY = 0 := by
  obtain ⟨p, hp⟩ := mouseMoveTimerCallback_state env s
  refine ⟨fun h => ?_, fun h => ?_, by rw [hp], by rw [hp]⟩
  · rw [mouseMoveTimerCallback_moves, if_pos h]
  · rw [mouseMoveTimerCallback_moves, if_neg (by tauto)]

/-- Witness of C15: accumulators `(65536, 7)` narrow to `(0, 7)` and are sent as
such; accumulators `(65536, 0)` narrow to zero and nothing is sent. -/
theorem relative_drain_witness :
    (toShort (deltaState 65536 7).m_MouseDeltaX ≠ 0 ∨
      toShort (deltaState 65536 7).m_MouseDeltaY ≠ 0) ∧
    (mouseMoveTimerCallback sampleEnv (deltaState 65536 7)).cmds.filter Cmd.isMove
      = [Cmd.move 0 7] ∧
    (mouseMoveTimerCallback sampleEnv (deltaState 65536 0)).cmds.filter Cmd.isMove = [] :=
  ⟨by decide,
   (relative_drain sampleEnv (deltaState 65536 7)).1 (by decide),
   (relative_drain sampleEnv (deltaState 65536 0)).2.1 (by decide)⟩

/-! ## Ticks on drained state, and what a tick may send -/

/-- A tick from zero accumulators and a clear flag sends nothing. -/
theorem mouseMoveTimerCallback_drained (env : Env) (s : State)
    (hx : s.m_MouseDeltaX = 0) (hy : s.m_MouseDeltaY = 0)
    (hu : s.m_MousePositionUpdated = 0) :
    (mouseMoveTimerCallback env s).cmds = [] := by
  rw [mouseMoveTimerCallback_cmds, mouseMoveTimerCallback_moves,
    mouseMoveTimerCallback_positions, drainMousePosition_idle _ (by simpa using hu), hx, hy]
  simp [toShort]

/-- The position part of the timer callback sends nothing while the lock is
held. -/
theorem drainMousePosition_locked (s : State) (hlock : s.m_MousePositionLock ≠ 0) :
    (drainMousePosition s).2 = [] := by
  unfold drainMousePosition
  simp only [SDL_AtomicSet, SDL_AtomicTryLock]
  split
  · simp [hlock]
  · rfl

/-- The Windows-only part does nothing on other builds. -/
theorem pendingMouseLeaveButtonUp_other (env : Env) (s : State) (h : env.win32 = false) :
    pendingMouseLeaveButtonUp env s = (s, []) := by
  simp [pendingMouseLeaveButtonUp, h]

/-- On a build that is not Windows a tick zeroes both accumulators and the
updated flag, changes nothing else and pushes no event. -/
theorem mouseMoveTimerCallback_other (env : Env) (s : State) (h : env.win32 = false) :
    (mouseMoveTimerCallback env s).state
      = { s with m_MouseDeltaX := 0, m_MouseDeltaY := 0, m_MousePositionUpdated := 0 } ∧
    (mouseMoveTimerCallback env s).pushed = [] := by
  simp only [mouseMoveTimerCallback, drainMousePosition_state, drainMouseDelta_state,
    pendingMouseLeaveButtonUp_other _ _ h, and_self]

/-- The Windows-only part, run a second time with the window system answering
as before, does nothing: either the first run has forgotten the button, or the
button is still held. -/
theorem pendingMouseLeaveButtonUp_twice (env : Env) (s : State) :
    pendingMouseLeaveButtonUp env (pendingMouseLeaveButtonUp env s).1
      = ((pendingMouseLeaveButtonUp env s).1, []) := by
  by_cases hc : env.win32 ∧ s.m_AbsoluteMouseMode ∧ s.m_PendingMouseLeaveButtonUp ≠ 0 ∧
      isCaptureActive s
  · by_cases hup : env.globalMouseState &&& SDL_BUTTON s.m_PendingMouseLeaveButtonUp = 0
    · have h1 : (pendingMouseLeaveButtonUp env s).1
          = { s with m_PendingMouseLeaveButtonUp := 0 } := by
        unfold pendingMouseLeaveButtonUp
        rw [if_pos hc, if_pos hup]
      rw [h1]
      simp [pendingMouseLeaveButtonUp]
    · have h1 : pendingMouseLeaveButtonUp env s = (s, []) := by
        unfold pendingMouseLeaveButtonUp
        rw [if_pos hc, if_neg hup]
      rw [h1]
      exact h1
  · have h1 : pendingMouseLeaveButtonUp env s = (s, []) := by
      unfold pendingMouseLeaveButtonUp
      rw [if_neg hc]
    rw [h1]
    exact h1

/-- A tick on the state that a tick with the same surroundings has left changes
nothing and pushes nothing. -/
theorem mouseMoveTimerCallback_twice (env : Env) (s : State) :
    (mouseMoveTimerCallback env (mouseMoveTimerCallback env s).state).state
      = (mouseMoveTimerCallback env s).state ∧
    (mouseMoveTimerCallback env (mouseMoveTimerCallback env s).state).pushed = [] := by
  obtain ⟨p, hp⟩ := pendingMouseLeaveButtonUp_state env
    { s with m_MouseDeltaX := 0, m_MouseDeltaY := 0, m_MousePositionUpdated := 0 }
  have hfirst : (mouseMoveTimerCallback env s).state
      = (pendingMouseLeaveButtonUp env
          { s with m_MouseDeltaX := 0, m_MouseDeltaY := 0, m_MousePositionUpdated := 0 }).1 := by
    simp only [mouseMoveTimerCallback, drainMousePosition_state, drainMouseDelta_state]
  have hdrained :
      ({ (mouseMoveTimerCallback env s).state with
          m_MouseDeltaX := 0, m_MouseDeltaY := 0, m_MousePositionUpdated := 0 } : State)
        = (mouseMoveTimerCallback env s).state := by
    rw [hfirst, hp]
  have hsecond : ∀ t : State, mouseMoveTimerCallback env t
      = { state := (pendingMouseLeaveButtonUp env
            { t with m_MouseDeltaX := 0, m_MouseDeltaY := 0, m_MousePositionUpdated := 0 }).1
          cmds := (mouseMoveTimerCallback env t).cmds
          pushed := (pendingMouseLeaveButtonUp env
            { t with m_MouseDeltaX := 0, m_MouseDeltaY := 0, m_MousePositionUpdated := 0 }).2 } := by
    intro t
    simp only [mouseMoveTimerCallback, drainMousePosition_state, drainMouseDelta_state]
  rw [hsecond (mouseMoveTimerCallback env s).state, hdrained, hfirst,
    pendingMouseLeaveButtonUp_twice]
  exact ⟨rfl, rfl⟩

/-- C16. When the timer callback runs twice in a row with nothing handled and
nothing changed around it in between, the second tick sends no command at all
and leaves the state as the first tick left it.  The second tick sends no
command, and leaves the capture flag, the mouse mode, both accumulators, the
report, its flag, its lock and the stream size as they were, also when the
window system answers differently than during the first tick.  After any tick
both accumulators and the updated flag are zero. -/
theorem empty_drain (env1 env2 : Env) (s : State) :
    ((mouseMoveTimerCallback env1 (mouseMoveTimerCallback env1 s).state).cmds = [] ∧
      (mouseMoveTimerCallback env1 (mouseMoveTimerCallback env1 s).state).state
        = (mouseMoveTimerCallback env1 s).state) ∧
    ((mouseMoveTimerCallback env2 (mouseMoveTimerCallback env1 s).state).cmds = [] ∧
      (mouseMoveTimerCallback env2 (mouseMoveTimerCallback env1 s).state).state.captureActive
        = (mouseMoveTimerCallback env1 s).state.captureActive ∧
      (mouseMoveTimerCallback env2
          (mouseMoveTimerCallback env1 s).state).state.m_AbsoluteMouseMode
        = (mouseMoveTimerCallback env1 s).state.m_AbsoluteMouseMode ∧
      (mouseMoveTimerCallback env2 (mouseMoveTimerCallback env1 s).state).state.m_MouseDeltaX
        = (mouseMoveTimerCallback env1 s).state.m_MouseDeltaX ∧
      (mouseMoveTimerCallback env2 (mouseMoveTimerCallback env1 s).state).state.m_MouseDeltaY
        = (mouseMoveTimerCallback env1 s).state.m_MouseDeltaY ∧
      (mouseMoveTimerCallback env2
          (mouseMoveTimerCallback env1 s).state).state.m_MousePositionReport
        = (mouseMoveTimerCallback env1 s).state.m_MousePositionReport ∧
      (mouseMoveTimerCallback env2
          (mouseMoveTimerCallback env1 s).state).state.m_MousePositionUpdated
        = (mouseMoveTimerCallback env1 s).state.m_MousePositionUpdated ∧
      (mouseMoveTimerCallback env2
          (mouseMoveTimerCallback env1 s).state).state.m_MousePositionLock
        = (mouseMoveTimerCallback env1 s).state.m_MousePositionLock ∧
      (mouseMoveTimerCallback env2 (mouseMoveTimerCallback env1 s).state).state.m_StreamWidth
        = (mouseMoveTimerCallback env1 s).state.m_StreamWidth ∧
      (mouseMoveTimerCallback env2 (mouseMoveTimerCallback env1 s).state).state.m_StreamHeight
        = (mouseMoveTimerCallback env1 s).state.m_StreamHeight) ∧
    ((mouseMoveTimerCallback env1 s).state.m_MouseDeltaX = 0 ∧
      (mouseMoveTimerCallback env1 s).state.m_MouseDeltaY = 0 ∧
      (mouseMoveTimerCallback env1 s).state.m_MousePositionUpdated = 0) := by
  obtain ⟨p1, h1⟩ := mouseMoveTimerCallback_state env1 s
  have hnone : ∀ env : Env,
      (mouseMoveTimerCallback env (mouseMoveTimerCallback env1 s).state).cmds = [] :=
    fun env => mouseMoveTimerCallback_drained env _ (by rw [h1]) (by rw [h1]) (by rw [h1])
  obtain ⟨p2, h2⟩ := mouseMoveTimerCallback_state env2 (mouseMoveTimerCallback env1 s).state
  refine ⟨⟨hnone env1, (mouseMoveTimerCallback_twice env1 s).1⟩, ⟨hnone env2, ?_⟩,
    by rw [h1], by rw [h1], by rw [h1]⟩
  rw [h2, h1]
  exact ⟨rfl, rfl, rfl, rfl, rfl, rfl, rfl, rfl, rfl⟩

/-- Witness of C16 on a Windows build: the first tick finds the remembered left
button released, pushes one button-up event and forgets the button; the second
tick, with the same surroundings, leaves that state as it is. -/
theorem empty_drain_witness :
    (mouseMoveTimerCallback (windowsEnv 0) pendingLeaveState).pushed.length = 1 ∧
    (mouseMoveTimerCallback (windowsEnv 0) pendingLeaveState).state.m_PendingMouseLeaveButtonUp
      = 0 ∧
    (mouseMoveTimerCallback (windowsEnv 0)
        (mouseMoveTimerCallback (windowsEnv 0) pendingLeaveState).state).cmds = [] ∧
    (mouseMoveTimerCallback (windowsEnv 0)
        (mouseMoveTimerCallback (windowsEnv 0) pendingLeaveState).state).state
      = (mouseMoveTimerCallback (windowsEnv 0) pendingLeaveState).state :=
  ⟨by decide, by decide, (empty_drain (windowsEnv 0) (windowsEnv 0) pendingLeaveState).1⟩

/-- C17, as stated, fails: a state that holds both accumulated relative motion
and a fresh position report with the lock free makes one tick send two motion
commands, a relative move and then an absolute position. -/
theorem motion_per_tick_both_counterexample :
    (mouseMoveTimerCallback sampleEnv mixedState).cmds
      = [Cmd.move 3 0, Cmd.position 700 450 1200 900] ∧
    ¬ ((mouseMoveTimerCallback sampleEnv mixedState).cmds.length ≤ 1) := by
  decide

/-- C17, amended. One tick sends at most one relative move and at most one
absolute position command, the move first and nothing else.  It sends at most
one motion command in every state in which both narrowed accumulators are zero,
or the updated flag is clear, or the lock is held.  A motion event handled in
absolute mode leaves the accumulators as they are and one handled in relative
mode leaves the updated flag as it is, so in a fixed mouse mode only one of the
two sources fills. -/
theorem motion_per_tick (env : Env) (s : State) :
    ((mouseMoveTimerCallback env s).cmds.filter Cmd.isMove).length ≤ 1 ∧
    ((mouseMoveTimerCallback env s).cmds.filter Cmd.isPosition).length ≤ 1 ∧
    (mouseMoveTimerCallback env s).cmds
      = (mouseMoveTimerCallback env s).cmds.filter Cmd.isMove ++
        (mouseMoveTimerCallback env s).cmds.filter Cmd.isPosition ∧
    (((toShort s.m_MouseDeltaX = 0 ∧ toShort s.m_MouseDeltaY = 0) ∨
        s.m_MousePositionUpdated = 0 ∨ s.m_MousePositionLock ≠ 0) →
      (mouseMoveTimerCallback env s).cmds.length ≤ 1) ∧
    (∀ (e : SDL_MouseMotionEvent) (r : State × List Cmd),
      s.m_AbsoluteMouseMode = true → handleMouseMotionEvent env s e = some r →
      r.1.m_MouseDeltaX = s.m_MouseDeltaX ∧ r.1.m_MouseDeltaY = s.m_MouseDeltaY) ∧
    (∀ (e : SDL_MouseMotionEvent) (r : State × List Cmd),
      s.m_AbsoluteMouseMode = false → handleMouseMotionEvent env s e = some r →
      r.1.m_MousePositionUpdated = s.m_MousePositionUpdated) := by
  have hm : ((mouseMoveTimerCallback env s).cmds.filter Cmd.isMove).length ≤ 1 := by
    rw [mouseMoveTimerCallback_moves]
    split <;> simp
  have hp : ((mouseMoveTimerCallback env s).cmds.filter Cmd.isPosition).length ≤ 1 := by
    rw [mouseMoveTimerCallback_positions]
    refine le_trans (List.length_filter_le _ _) ?_
    unfold drainMousePosition
    simp only
    split
    · split <;> simp
    · simp
  refine ⟨hm, hp, mouseMoveTimerCallback_cmds env s, ?_, ?_, ?_⟩
  · intro h
    rw [mouseMoveTimerCallback_cmds, List.length_append]
    rcases h with h | h | h
    · rw [mouseMoveTimerCallback_moves, if_neg (by tauto)]
      simpa using hp
    · rw [mouseMoveTimerCallback_positions, drainMousePosition_idle _ (by simpa using h)]
      simpa using hm
    · rw [mouseMoveTimerCallback_positions, drainMousePosition_locked _ (by simpa using h)]
      simpa using hm
  · intro e r habs hr
    by_cases hact : isCaptureActive s = true
    · by_cases hsyn : e.which = SDL_TOUCH_MOUSEID
      · simp [handleMouseMotionEvent, hact, hsyn] at hr
        subst hr
        exact ⟨rfl, rfl⟩
      · simp only [handleMouseMotionEvent, hact, hsyn, habs, Bool.not_true, if_false,
          if_true, Bool.false_eq_true] at hr
        by_cases hl : s.m_MousePositionLock = 0
        · rw [updateMousePositionReport_free env s e.x e.y hl] at hr
          simp at hr
          subst hr
          exact ⟨rfl, rfl⟩
        · simp [updateMousePositionReport, SDL_AtomicLock, hl] at hr
    · simp [handleMouseMotionEvent, hact] at hr
      subst hr
      exact ⟨rfl, rfl⟩
  · intro e r hrel hr
    by_cases hact : isCaptureActive s = true
    · by_cases hsyn : e.which = SDL_TOUCH_MOUSEID
      · simp [handleMouseMotionEvent, hact, hsyn] at hr
        subst hr
        rfl
      · simp [handleMouseMotionEvent, hact, hsyn, hrel] at hr
        subst hr
        rfl
    · simp [handleMouseMotionEvent, hact] at hr
      subst hr
      rfl

/-- Witness of C17, amended: with a report pending and the accumulators
`(65536, 0)`, which narrow to zero, the tick sends the position alone. -/
theorem motion_per_tick_witness :
    (toShort ({ mixedState with m_MouseDeltaX := 65536 } : State).m_MouseDeltaX = 0 ∧
      toShort ({ mixedState with m_MouseDeltaX := 65536 } : State).m_MouseDeltaY = 0) ∧
    (mouseMoveTimerCallback sampleEnv { mixedState with m_MouseDeltaX := 65536 }).cmds.length
      ≤ 1 :=
  ⟨by decide,
   (motion_per_tick sampleEnv { mixedState with m_MouseDeltaX := 65536 }).2.2.2.1
     (Or.inl (by decide))⟩

/-- C18, as stated, fails: a motion of `(7, 0)` is accumulated while captured,
capture is then released with `setCaptureActive false`, and the next tick, run
with capture inactive, still sends the move `(7, 0)`. -/
theorem timer_while_inactive_counterexample :
    (handleMouseMotionEvent sampleEnv capturedState (motionEvent 7 0)).map
      (fun r => (isCaptureActive (setCaptureActive r.1 false),
        (mouseMoveTimerCallback sampleEnv (setCaptureActive r.1 false)).cmds))
      = some (false, [Cmd.move 7 0]) := by
  decide

/-- C18, amended. The timer does not consult the capture flag: with capture
inactive a tick sends exactly what it sends with capture active.  It sends no
relative move exactly when both narrowed accumulators are zero, no position
exactly when the updated flag is clear or the lock is held, and so nothing at
all when the accumulators are zero and no report is pending. -/
theorem timer_while_inactive (env : Env) (s : State) (_hs : isCaptureActive s = false) :
    (mouseMoveTimerCallback env s).cmds
      = (mouseMoveTimerCallback env (setCaptureActive s true)).cmds ∧
    ((mouseMoveTimerCallback env s).cmds.filter Cmd.isMove = [] ↔
      (toShort s.m_MouseDeltaX = 0 ∧ toShort s.m_MouseDeltaY = 0)) ∧
    ((mouseMoveTimerCallback env s).cmds.filter Cmd.isPosition = [] ↔
      (s.m_MousePositionUpdated = 0 ∨ s.m_MousePositionLock ≠ 0)) ∧
    ((toShort s.m_MouseDeltaX = 0 ∧ toShort s.m_MouseDeltaY = 0 ∧
        s.m_MousePositionUpdated = 0) →
      (mouseMoveTimerCallback env s).cmds = []) := by
  have hmove : ((mouseMoveTimerCallback env s).cmds.filter Cmd.isMove = [] ↔
      (toShort s.m_MouseDeltaX = 0 ∧ toShort s.m_MouseDeltaY = 0)) := by
    rw [mouseMoveTimerCallback_moves]
    by_cases h : toShort s.m_MouseDeltaX ≠ 0 ∨ toShort s.m_MouseDeltaY ≠ 0
    · rw [if_pos h]
      simp only [List.cons_ne_nil, false_iff]
      tauto
    · rw [if_neg h]
      simp only [true_iff]
      tauto
  have hpos : ((mouseMoveTimerCallback env s).cmds.filter Cmd.isPosition = [] ↔
      (s.m_MousePositionUpdated = 0 ∨ s.m_MousePositionLock ≠ 0)) := by
    rw [mouseMoveTimerCallback_positions]
    by_cases hu : s.m_MousePositionUpdated = 0
    · rw [drainMousePosition_idle _ (by simpa using hu)]
      simp [hu]
    · by_cases hl : s.m_MousePositionLock = 0
      · rw [drainMousePosition_pending _ (by simpa using hu) (by simpa using hl)]
        simp [hu, hl, Cmd.isPosition]
      · rw [drainMousePosition_locked _ (by simpa using hl)]
        simp [hl]
  refine ⟨?_, hmove, hpos, fun h => ?_⟩
  · have hd : (drainMouseDelta (setCaptureActive s true)).2 = (drainMouseDelta s).2 := by
      unfold drainMouseDelta setCaptureActive
      simp only
      split <;> rfl
    have hp : (drainMousePosition { setCaptureActive s true with
          m_MouseDeltaX := 0, m_MouseDeltaY := 0 }).2
        = (drainMousePosition { s with m_MouseDeltaX := 0, m_MouseDeltaY := 0 }).2 := by
      by_cases hu : s.m_MousePositionUpdated = 0
      · rw [drainMousePosition_idle _ (by simpa [setCaptureActive] using hu),
          drainMousePosition_idle _ (by simpa using hu)]
      · by_cases hl : s.m_MousePositionLock = 0
        · rw [drainMousePosition_pending _ (by simpa [setCaptureActive] using hu)
              (by simpa [setCaptureActive] using hl),
            drainMousePosition_pending _ (by simpa using hu) (by simpa using hl)]
          rfl
        · rw [drainMousePosition_locked _ (by simpa [setCaptureActive] using hl),
            drainMousePosition_locked _ (by simpa using hl)]
    simp only [mouseMoveTimerCallback, drainMouseDelta_state, hd, hp]
  · rw [mouseMoveTimerCallback_cmds, hmove.2 ⟨h.1, h.2.1⟩, hpos.2 (Or.inl h.2.2)]
    rfl

/-- Witness of C18, amended: the idle handler, capture inactive and nothing
batched, sends nothing on a tick. -/
theorem timer_while_inactive_witness :
    isCaptureActive idleState = false ∧
    (mouseMoveTimerCallback sampleEnv idleState).cmds = [] :=
  ⟨by decide,
   (timer_while_inactive sampleEnv idleState (by decide)).2.2.2 (by decide)⟩

/-! ## Hit test and clamp -/

/-- The hit test with a supplied non-negative window size, in terms of
`videoRegion`. -/
theorem isMouseInVideoRegion_supplied (env : Env) (s : State)
    (px py windowWidth windowHeight : Int) (hw : 0 ≤ windowWidth) (hh : 0 ≤ windowHeight) :
    isMouseInVideoRegion env s px py windowWidth windowHeight = true ↔
      ((videoRegion s windowWidth windowHeight).x ≤ px ∧
        px ≤ (videoRegion s windowWidth windowHeight).x + (videoRegion s windowWidth windowHeight).w) ∧
      ((videoRegion s windowWidth windowHeight).y ≤ py ∧
        py ≤ (videoRegion s windowWidth windowHeight).y + (videoRegion s windowWidth windowHeight).h) := by
  have hsize : ¬ (windowWidth < 0 ∨ windowHeight < 0) := by omega
  simp only [isMouseInVideoRegion, hsize, if_false, Bool.and_eq_true,
    decide_eq_true_eq, ge_iff_le]

/-- Clamping a value that lies in `[0, hi]` returns it. -/
theorem clamp_inside (v hi : Int) (h0 : 0 ≤ v) (h1 : v ≤ hi) : min (max v 0) hi = v := by
  rw [max_eq_left h0, min_eq_left h1]

/-- Clamping a value that lies outside `[0, hi]` returns `0` or `hi`. -/
theorem clamp_outside (v hi : Int) (h : v < 0 ∨ hi < v) :
    min (max v 0) hi = 0 ∨ min (max v 0) hi = hi := by
  rcases h with h | h
  · rw [max_eq_right (le_of_lt h)]
    rcases le_total 0 hi with h2 | h2
    · exact Or.inl (min_eq_left h2)
    · exact Or.inr (min_eq_right h2)
  · exact Or.inr (min_eq_right (le_trans (le_of_lt h) (le_max_left v 0)))

/-- C20. For a pending report `(px, py)` taken in a window of non-negative
size, with the lock free and region dimensions `w`, `h` that fit in signed
16 bits: when the hit test on the report is true, the tick sends the position
`(px - x0, py - y0)`, no clamping applied; when it is false, the position sent
has `x = 0`, `x = w`, `y = 0` or `y = h`.  The reference size is `(w, h)` in
both cases. -/
theorem hit_test_clamp_agree (envHit env : Env) (s : State)
    (hupd : s.m_MousePositionUpdated ≠ 0) (hlock : s.m_MousePositionLock = 0)
    (hsize : 0 ≤ s.m_MousePositionReport.windowWidth ∧
      0 ≤ s.m_MousePositionReport.windowHeight)
    (hw : -32768 ≤ (videoRegion s s.m_MousePositionReport.windowWidth
        s.m_MousePositionReport.windowHeight).w ∧
      (videoRegion s s.m_MousePositionReport.windowWidth
        s.m_MousePositionReport.windowHeight).w ≤ 32767)
    (hh : -32768 ≤ (videoRegion s s.m_MousePositionReport.windowWidth
        s.m_MousePositionReport.windowHeight).h ∧
      (videoRegion s s.m_MousePositionReport.windowWidth
        s.m_MousePositionReport.windowHeight).h ≤ 32767) :
    (isMouseInVideoRegion envHit s s.m_MousePositionReport.x s.m_MousePositionReport.y
        s.m_MousePositionReport.windowWidth s.m_MousePositionReport.windowHeight = true →
      (mouseMoveTimerCallback env s).cmds.filter Cmd.isPosition
        = [Cmd.position
            (s.m_MousePositionReport.x - (videoRegion s s.m_MousePositionReport.windowWidth
              s.m_MousePositionReport.windowHeight).x)
            (s.m_MousePositionReport.y - (videoRegion s s.m_MousePositionReport.windowWidth
              s.m_MousePositionReport.windowHeight).y)
            (videoRegion s s.m_MousePositionReport.windowWidth
              s.m_MousePositionReport.windowHeight).w
            (videoRegion s s.m_MousePositionReport.windowWidth
              s.m_MousePositionReport.windowHeight).h]) ∧
    (isMouseInVideoRegion envHit s s.m_MousePositionReport.x s.m_MousePositionReport.y
        s.m_MousePositionReport.windowWidth s.m_MousePositionReport.windowHeight = false →
      ∃ x y : Int,
        (mouseMoveTimerCallback env s).cmds.filter Cmd.isPosition
          = [Cmd.position x y
              (videoRegion s s.m_MousePositionReport.windowWidth
                s.m_MousePositionReport.windowHeight).w
              (videoRegion s s.m_MousePositionReport.windowWidth
                s.m_MousePositionReport.windowHeight).h] ∧
        (x = 0 ∨
          x = (videoRegion s s.m_MousePositionReport.windowWidth
                s.m_MousePositionReport.windowHeight).w ∨
          y = 0 ∨
          y = (videoRegion s s.m_MousePositionReport.windowWidth
                s.m_MousePositionReport.windowHeight).h)) := by
  obtain ⟨hw0, hw1⟩ := hw
  obtain ⟨hh0, hh1⟩ := hh
  have hhit := isMouseInVideoRegion_supplied envHit s s.m_MousePositionReport.x
    s.m_MousePositionReport.y _ _ hsize.1 hsize.2
  have hcmd := mouseMoveTimerCallback_positions env s
  rw [drainMousePosition_pending _ (by simpa using hupd) (by simpa using hlock)] at hcmd
  simp only [List.filter_cons, Cmd.isPosition, if_true, List.filter_nil] at hcmd
  have hreg : videoRegion { s with m_MouseDeltaX := 0, m_MouseDeltaY := 0 }
      s.m_MousePositionReport.windowWidth s.m_MousePositionReport.windowHeight
      = videoRegion s s.m_MousePositionReport.windowWidth
          s.m_MousePositionReport.windowHeight := rfl
  rw [hreg] at hcmd
  rw [hcmd, toShort_of_int16 _ hw0 hw1, toShort_of_int16 _ hh0 hh1]
  generalize videoRegion s s.m_MousePositionReport.windowWidth
    s.m_MousePositionReport.windowHeight = r at hw0 hw1 hh0 hh1 hhit ⊢
  refine ⟨fun hin => ?_, fun hout => ?_⟩
  · obtain ⟨⟨hx0, hx1⟩, ⟨hy0, hy1⟩⟩ := hhit.1 hin
    rw [clamp_inside _ _ (by omega) (by omega), clamp_inside _ _ (by omega) (by omega),
      toShort_of_fits _ (by omega) (by omega), toShort_of_fits _ (by omega) (by omega)]
  · refine ⟨_, _, rfl, ?_⟩
    have hnot : ¬ ((r.x ≤ s.m_MousePositionReport.x ∧ s.m_MousePositionReport.x ≤ r.x + r.w) ∧
        (r.y ≤ s.m_MousePositionReport.y ∧ s.m_MousePositionReport.y ≤ r.y + r.h)) := by
      intro h
      rw [hhit.2 h] at hout
      cases hout
    by_cases hxin : r.x ≤ s.m_MousePositionReport.x ∧ s.m_MousePositionReport.x ≤ r.x + r.w
    · have hyout : s.m_MousePositionReport.y - r.y < 0 ∨ r.h < s.m_MousePositionReport.y - r.y := by
        by_contra hc
        exact hnot ⟨hxin, by omega⟩
      rcases clamp_outside _ _ hyout with h | h
      · rw [h]
        exact Or.inr (Or.inr (Or.inl (by decide)))
      · rw [h]
        exact Or.inr (Or.inr (Or.inr (toShort_of_int16 _ hh0 hh1)))
    · have hxout : s.m_MousePositionReport.x - r.x < 0 ∨ r.w < s.m_MousePositionReport.x - r.x := by
        omega
      rcases clamp_outside _ _ hxout with h | h
      · rw [h]
        exact Or.inl (by decide)
      · rw [h]
        exact Or.inr (Or.inl (toShort_of_int16 _ hw0 hw1))

/-- Witness of C20: in a `1600x900` window the report `(900, 450)` passes the
hit test and is sent as `(700, 450)`; the report `(100, 100)` fails it and is
sent with `x = 0`. -/
theorem hit_test_clamp_agree_witness :
    ((reportState 900 450 1600 900).m_MousePositionUpdated ≠ 0 ∧
      (reportState 900 450 1600 900).m_MousePositionLock = 0 ∧
      isMouseInVideoRegion sampleEnv (reportState 900 450 1600 900) 900 450 1600 900 = true ∧
      isMouseInVideoRegion sampleEnv (reportState 100 100 1600 900) 100 100 1600 900 = false) ∧
    (mouseMoveTimerCallback sampleEnv (reportState 900 450 1600 900)).cmds.filter Cmd.isPosition
      = [Cmd.position 700 450 1200 900] ∧
    (mouseMoveTimerCallback sampleEnv (reportState 100 100 1600 900)).cmds.filter Cmd.isPosition
      = [Cmd.position 0 100 1200 900] :=
  ⟨by decide,
   (hit_test_clamp_agree sampleEnv sampleEnv (reportState 900 450 1600 900) (by decide)
     (by decide) (by decide) (by decide) (by decide)).1 (by decide),
   by decide⟩

/-! ## A failed lock attempt on the timer side -/

/-- With a report pending and the lock free, the positions that a tick sends
are the one command built from the report and the stream size. -/
theorem tick_positions_pending (env : Env) (s : State)
    (hupd : s.m_MousePositionUpdated ≠ 0) (hlock : s.m_MousePositionLock = 0) :
    (mouseMoveTimerCallback env s).cmds.filter Cmd.isPosition
      = [positionCommand s.m_StreamWidth s.m_StreamHeight s.m_MousePositionReport] := by
  rw [mouseMoveTimerCallback_positions,
    drainMousePosition_pending _ (by simpa using hupd) (by simpa using hlock)]
  simp [positionCommand, videoRegion, LiSendMousePositionEvent, toShort_toShort, Cmd.isPosition]

/-- With the flag clear a tick sends no position. -/
theorem tick_positions_clear (env : Env) (s : State) (hupd : s.m_MousePositionUpdated = 0) :
    (mouseMoveTimerCallback env s).cmds.filter Cmd.isPosition = [] := by
  rw [mouseMoveTimerCallback_positions, drainMousePosition_idle _ (by simpa using hupd)]
  rfl

/-- With the lock held a tick sends no position. -/
theorem tick_positions_locked (env : Env) (s : State) (hlock : s.m_MousePositionLock ≠ 0) :
    (mouseMoveTimerCallback env s).cmds.filter Cmd.isPosition = [] := by
  rw [mouseMoveTimerCallback_positions, drainMousePosition_locked _ (by simpa using hlock)]
  rfl

/-- What a tick leaves of the members that the position report lives in. -/
theorem tick_members (env : Env) (s : State) :
    (mouseMoveTimerCallback env s).state.m_MousePositionReport = s.m_MousePositionReport ∧
    (mouseMoveTimerCallback env s).state.m_MousePositionLock = s.m_MousePositionLock ∧
    (mouseMoveTimerCallback env s).state.m_MousePositionUpdated = 0 ∧
    (mouseMoveTimerCallback env s).state.m_StreamWidth = s.m_StreamWidth ∧
    (mouseMoveTimerCallback env s).state.m_StreamHeight = s.m_StreamHeight := by
  obtain ⟨p, hp⟩ := mouseMoveTimerCallback_state env s
  rw [hp]
  exact ⟨rfl, rfl, rfl, rfl, rfl⟩

/-- The initial configuration satisfies `Reached` when the lock is free. -/
theorem reached_initial (s : State) (h0 : s.m_MousePositionLock = 0) :
    Reached s (initial s) :=
  ⟨by simp [initial, WriterPc.inSection, h0], by simp [initial, writerProgress], ⟨rfl, rfl⟩⟩

/-- Every action keeps `Reached`. -/
theorem reached_step (s0 : State) (c c1 : Config) (a : Action)
    (hc : Reached s0 c) (hs : step c a = some c1) : Reached s0 c1 := by
  obtain ⟨hl, hp, hsw, hsh⟩ := hc
  rcases c with ⟨mem, w, sent⟩
  cases a with
  | call env mouseX mouseY =>
    by_cases hw : w = WriterPc.idle
    · subst hw
      simp [step, writerCall] at hs
      subst hs
      exact ⟨by simpa [WriterPc.inSection] using hl, by simp [writerProgress], hsw, hsh⟩
    · simp [step, hw] at hs
  | tick env =>
    simp only [step, Option.some.injEq] at hs
    subst hs
    obtain ⟨h1, h2, _, h4, h5⟩ := tick_members env mem
    refine ⟨?_, ?_, ?_, ?_⟩
    · simpa [h2] using hl
    · simpa [h1] using hp
    · simpa [h4] using hsw
    · simpa [h5] using hsh
  | write =>
    cases w with
    | idle => simp [step, writerStep] at hs
    | lock a =>
      by_cases hlock : mem.m_MousePositionLock = 0
      · simp [step, writerStep, SDL_AtomicLock, hlock] at hs
        subst hs
        exact ⟨by simp [WriterPc.inSection], by simp [writerProgress], hsw, hsh⟩
      · simp [step, writerStep, SDL_AtomicLock, hlock] at hs
    | writeX a =>
      simp [step, writerStep] at hs
      subst hs
      exact ⟨by simpa [WriterPc.inSection] using hl, by simp [writerProgress], hsw, hsh⟩
    | writeY a =>
      simp [step, writerStep] at hs
      subst hs
      exact ⟨by simpa [WriterPc.inSection] using hl,
        by simpa [writerProgress] using hp, hsw, hsh⟩
    | writeWidth a =>
      simp [step, writerStep] at hs
      subst hs
      exact ⟨by simpa [WriterPc.inSection] using hl,
        by simpa [writerProgress] using hp, hsw, hsh⟩
    | writeHeight a =>
      simp [step, writerStep] at hs
      subst hs
      refine ⟨by simpa [WriterPc.inSection] using hl, ?_, hsw, hsh⟩
      simp only [writerProgress] at hp ⊢
      obtain ⟨h1, h2, h3⟩ := hp
      cases a
      simp_all
    | unlock a =>
      simp [step, writerStep, SDL_AtomicUnlock] at hs
      subst hs
      exact ⟨by simp [WriterPc.inSection], by simpa [writerProgress] using hp, hsw, hsh⟩
    | setUpdated a =>
      simp [step, writerStep] at hs
      subst hs
      exact ⟨by simpa [WriterPc.inSection] using hl, by simp [writerProgress], hsw, hsh⟩

/-- Every schedule keeps `Reached`. -/
theorem reached_run (s0 : State) (sched : List Action) :
    ∀ c c1 : Config, Reached s0 c → run c sched = some c1 → Reached s0 c1 := by
  induction sched with
  | nil =>
    intro c c1 hc hr
    simp only [run, Option.some.injEq] at hr
    subst hr
    exact hc
  | cons a rest ih =>
    intro c c1 hc hr
    simp only [run] at hr
    cases hstep : step c a with
    | none => simp [hstep] at hr
    | some c2 =>
      simp only [hstep] at hr
      exact ih c2 c1 (reached_step s0 c c2 a hc hstep) hr

/-- An action other than a new call keeps `Deferred`. -/
theorem deferred_step (sw sh : Int) (base : List Cmd) (a : MousePositionReport)
    (c c1 : Config) (act : Action) (hact : act.isCall = false)
    (hd : Deferred sw sh base a c) (hs : step c act = some c1) :
    Deferred sw sh base a c1 := by
  obtain ⟨hsw, hsh, hd⟩ := hd
  rcases c with ⟨mem, w, sent⟩
  cases act with
  | call env mouseX mouseY => simp [Action.isCall] at hact
  | tick env =>
    simp only [step, Option.some.injEq] at hs
    subst hs
    obtain ⟨h1, h2, h3, h4, h5⟩ := tick_members env mem
    subst hsw hsh
    refine ⟨h4, h5, ?_⟩
    cases w with
    | idle =>
      simp only [h1, h2, h3, List.filter_append] at hd ⊢
      obtain ⟨hl, hcase⟩ := hd
      refine ⟨hl, Or.inr ⟨trivial, ?_⟩⟩
      rcases hcase with ⟨hu, hr, hb⟩ | ⟨hu, hb⟩
      · rw [tick_positions_pending env mem hu hl, hb, hr]
      · rw [tick_positions_clear env mem hu, hb, List.append_nil]
    | lock b => exact hd.elim
    | setUpdated b =>
      simp only [h1, h2, h3, List.filter_append] at hd ⊢
      obtain ⟨hb, hl, hu, hr, hbase⟩ := hd
      exact ⟨hb, hl, trivial, hr, by rw [tick_positions_clear env mem hu, hbase, List.append_nil]⟩
    | writeX b =>
      simp only [h1, h2, h3, List.filter_append] at hd ⊢
      obtain ⟨hb, hl, hu, hp, hbase⟩ := hd
      exact ⟨hb, hl, trivial, hp, by rw [tick_positions_clear env mem hu, hbase, List.append_nil]⟩
    | writeY b =>
      simp only [h1, h2, h3, List.filter_append] at hd ⊢
      obtain ⟨hb, hl, hu, hp, hbase⟩ := hd
      exact ⟨hb, hl, trivial, hp, by rw [tick_positions_clear env mem hu, hbase, List.append_nil]⟩
    | writeWidth b =>
      simp only [h1, h2, h3, List.filter_append] at hd ⊢
      obtain ⟨hb, hl, hu, hp, hbase⟩ := hd
      exact ⟨hb, hl, trivial, hp, by rw [tick_positions_clear env mem hu, hbase, List.append_nil]⟩
    | writeHeight b =>
      simp only [h1, h2, h3, List.filter_append] at hd ⊢
      obtain ⟨hb, hl, hu, hp, hbase⟩ := hd
      exact ⟨hb, hl, trivial, hp, by rw [tick_positions_clear env mem hu, hbase, List.append_nil]⟩
    | unlock b =>
      simp only [h1, h2, h3, List.filter_append] at hd ⊢
      obtain ⟨hb, hl, hu, hp, hbase⟩ := hd
      exact ⟨hb, hl, trivial, hp, by rw [tick_positions_clear env mem hu, hbase, List.append_nil]⟩
  | write =>
    cases w with
    | idle => simp [step, writerStep] at hs
    | lock b => exact hd.elim
    | writeX b =>
      simp [step, writerStep] at hs
      subst hs
      simp only [WriterPc.args, Option.some.injEq, writerProgress] at hd ⊢
      obtain ⟨hb, hl, hu, _, hbase⟩ := hd
      exact ⟨hsw, hsh, congrArg some hb, hl, hu, rfl, hbase⟩
    | writeY b =>
      simp [step, writerStep] at hs
      subst hs
      simp only [WriterPc.args, Option.some.injEq, writerProgress] at hd ⊢
      obtain ⟨hb, hl, hu, hp, hbase⟩ := hd
      exact ⟨hsw, hsh, congrArg some hb, hl, hu, ⟨hp, rfl⟩, hbase⟩
    | writeWidth b =>
      simp [step, writerStep] at hs
      subst hs
      simp only [WriterPc.args, Option.some.injEq, writerProgress] at hd ⊢
      obtain ⟨hb, hl, hu, hp, hbase⟩ := hd
      exact ⟨hsw, hsh, congrArg some hb, hl, hu, ⟨hp.1, hp.2, rfl⟩, hbase⟩
    | writeHeight b =>
      simp [step, writerStep] at hs
      subst hs
      simp only [WriterPc.args, Option.some.injEq, writerProgress] at hd ⊢
      obtain ⟨hb, hl, hu, ⟨h1, h2, h3⟩, hbase⟩ := hd
      refine ⟨hsw, hsh, congrArg some hb, hl, hu, ?_, hbase⟩
      show (_ : MousePositionReport) = b
      cases b
      simp_all
    | unlock b =>
      simp [step, writerStep, SDL_AtomicUnlock] at hs
      subst hs
      simp only [WriterPc.args, Option.some.injEq, writerProgress] at hd ⊢
      obtain ⟨hb, hl, hu, hp, hbase⟩ := hd
      exact ⟨hsw, hsh, hb, rfl, hu, hp.trans hb, hbase⟩
    | setUpdated b =>
      simp [step, writerStep, SDL_AtomicSet] at hs
      subst hs
      obtain ⟨hb, hl, hu, hr, hbase⟩ := hd
      exact ⟨hsw, hsh, hl, Or.inl ⟨by simp, hr, hbase⟩⟩

/-- A schedule without new calls keeps `Deferred`. -/
theorem deferred_run (sw sh : Int) (base : List Cmd) (a : MousePositionReport)
    (sched : List Action) :
    ∀ c c1 : Config, (∀ act ∈ sched, act.isCall = false) → Deferred sw sh base a c →
      run c sched = some c1 → Deferred sw sh base a c1 := by
  induction sched with
  | nil =>
    intro c c1 _ hd hr
    simp only [run, Option.some.injEq] at hr
    subst hr
    exact hd
  | cons act rest ih =>
    intro c c1 hacts hd hr
    simp only [run] at hr
    cases hstep : step c act with
    | none => simp [hstep] at hr
    | some c2 =>
      simp only [hstep] at hr
      exact ih c2 c1 (fun b hb => hacts b (List.mem_cons_of_mem _ hb))
        (deferred_step sw sh base a c c2 act (hacts act (List.mem_cons_self _ _)) hd hstep) hr

/-- A configuration in which the event thread holds the lock and the flag is
clear is `Deferred` for the record being written. -/
theorem deferred_of_section (pc : WriterPc) (hpc : pc.inSection = true) :
    ∃ a : MousePositionReport, pc.args = some a ∧
      ∀ (mem : State) (sent : List Cmd),
        mem.m_MousePositionLock ≠ 0 → mem.m_MousePositionUpdated = 0 →
        writerProgress mem.m_MousePositionReport pc →
        Deferred mem.m_StreamWidth mem.m_StreamHeight (sent.filter Cmd.isPosition) a
          { mem := mem, writer := pc, sent := sent } := by
  cases pc with
  | idle => simp [WriterPc.inSection] at hpc
  | lock b => simp [WriterPc.inSection] at hpc
  | setUpdated b => simp [WriterPc.inSection] at hpc
  | writeX b => exact ⟨b, rfl, fun mem sent hl hu hp => ⟨rfl, rfl, rfl, hl, hu, hp, rfl⟩⟩
  | writeY b => exact ⟨b, rfl, fun mem sent hl hu hp => ⟨rfl, rfl, rfl, hl, hu, hp, rfl⟩⟩
  | writeWidth b => exact ⟨b, rfl, fun mem sent hl hu hp => ⟨rfl, rfl, rfl, hl, hu, hp, rfl⟩⟩
  | writeHeight b => exact ⟨b, rfl, fun mem sent hl hu hp => ⟨rfl, rfl, rfl, hl, hu, hp, rfl⟩⟩
  | unlock b => exact ⟨b, rfl, fun mem sent hl hu hp => ⟨rfl, rfl, rfl, hl, hu, hp, rfl⟩⟩

/-- Once it holds the lock the event thread runs to the end of its call
without waiting: its remaining statements leave the record written, the lock
free and the flag set. -/
theorem writer_finishes (pc : WriterPc) (hpc : pc.inSection = true) (a : MousePositionReport)
    (ha : pc.args = some a) (mem : State) (sent : List Cmd)
    (hp : writerProgress mem.m_MousePositionReport pc) :
    ∃ d : Config,
      run { mem := mem, writer := pc, sent := sent } (List.replicate pc.remaining Action.write)
        = some d ∧
      d.writer = WriterPc.idle ∧ d.mem.m_MousePositionUpdated = 1 ∧
      d.mem.m_MousePositionLock = 0 ∧ d.mem.m_MousePositionReport = a ∧ d.sent = sent := by
  cases pc with
  | idle => simp [WriterPc.inSection] at hpc
  | lock b => simp [WriterPc.inSection] at hpc
  | setUpdated b => simp [WriterPc.inSection] at hpc
  | writeX b =>
    simp only [WriterPc.args, Option.some.injEq] at ha
    subst ha
    exact ⟨_, rfl, rfl, rfl, rfl, rfl, rfl⟩
  | writeY b =>
    simp only [WriterPc.args, Option.some.injEq] at ha
    subst ha
    simp only [writerProgress] at hp
    refine ⟨_, rfl, rfl, rfl, rfl, ?_, rfl⟩
    cases b
    simp_all
  | writeWidth b =>
    simp only [WriterPc.args, Option.some.injEq] at ha
    subst ha
    simp only [writerProgress] at hp
    refine ⟨_, rfl, rfl, rfl, rfl, ?_, rfl⟩
    cases b
    simp_all
  | writeHeight b =>
    simp only [WriterPc.args, Option.some.injEq] at ha
    subst ha
    simp only [writerProgress] at hp
    refine ⟨_, rfl, rfl, rfl, rfl, ?_, rfl⟩
    cases b
    simp_all
  | unlock b =>
    simp only [WriterPc.args, Option.some.injEq] at ha
    subst ha
    simp only [writerProgress] at hp
    exact ⟨_, rfl, rfl, rfl, rfl, hp, rfl⟩

/-- C19. In any configuration reached by interleaving calls and statements of
`updateMousePositionReport` with timer ticks, starting with the lock free, a
tick that finds the flag set and the lock held sends no position and leaves
the report as it is.  The event thread is then between lines 67 and 71, writing
some record `a`; it finishes its call without waiting, leaving `a` written, the
lock free and the flag set.  In every continuation without a new call, once the
event thread is outside the function either `a` is still pending, and then any
tick sends exactly the position of `a`, or the position of `a` is the one
position that has been sent since the failed attempt. -/
theorem failed_lock_defers (s0 : State) (sched : List Action) (c : Config) (env : Env)
    (h0 : s0.m_MousePositionLock = 0) (hrun : run (initial s0) sched = some c)
    (_hflag : c.mem.m_MousePositionUpdated ≠ 0) (hheld : c.mem.m_MousePositionLock ≠ 0) :
    (mouseMoveTimerCallback env c.mem).cmds.filter Cmd.isPosition = [] ∧
    (mouseMoveTimerCallback env c.mem).state.m_MousePositionReport
      = c.mem.m_MousePositionReport ∧
    ∃ (a : MousePositionReport) (c1 : Config),
      c.writer.inSection = true ∧ c.writer.args = some a ∧
      step c (Action.tick env) = some c1 ∧
      (∃ d : Config,
        run c1 (List.replicate c1.writer.remaining Action.write) = some d ∧
        d.writer = WriterPc.idle ∧ d.mem.m_MousePositionUpdated = 1 ∧
        d.mem.m_MousePositionLock = 0 ∧ d.mem.m_MousePositionReport = a) ∧
      ∀ (sched2 : List Action) (d : Config),
        (∀ act ∈ sched2, act.isCall = false) → run c1 sched2 = some d →
        d.writer = WriterPc.idle →
        (d.mem.m_MousePositionUpdated ≠ 0 ∧ d.mem.m_MousePositionLock = 0 ∧
          d.mem.m_MousePositionReport = a ∧
          d.sent.filter Cmd.isPosition = c.sent.filter Cmd.isPosition ∧
          ∀ env2 : Env, (mouseMoveTimerCallback env2 d.mem).cmds.filter Cmd.isPosition
            = [positionCommand s0.m_StreamWidth s0.m_StreamHeight a]) ∨
        (d.mem.m_MousePositionUpdated = 0 ∧
          d.sent.filter Cmd.isPosition
            = c.sent.filter Cmd.isPosition ++
              [positionCommand s0.m_StreamWidth s0.m_StreamHeight a]) := by
  have hR := reached_run s0 sched _ c (reached_initial s0 h0) hrun
  obtain ⟨hl, hp, hsw, hsh⟩ := hR
  have hsec : c.writer.inSection = true := by
    cases hw : c.writer.inSection with
    | true => rfl
    | false => exact absurd (hl.2 hw) hheld
  obtain ⟨h1, h2, h3, h4, h5⟩ := tick_members env c.mem
  have hnone := tick_positions_locked env c.mem hheld
  obtain ⟨a, ha, hdef⟩ := deferred_of_section c.writer hsec
  refine ⟨hnone, h1, a, _, hsec, ha, rfl, ?_, ?_⟩
  · obtain ⟨d, hd1, hd2, hd3, hd4, hd5, _⟩ := writer_finishes c.writer hsec a ha
      (mouseMoveTimerCallback env c.mem).state (c.sent ++ (mouseMoveTimerCallback env c.mem).cmds)
      (by rw [h1]; exact hp)
    exact ⟨d, hd1, hd2, hd3, hd4, hd5⟩
  · intro sched2 d hacts hrun2 hidle
    have hD := hdef (mouseMoveTimerCallback env c.mem).state
      (c.sent ++ (mouseMoveTimerCallback env c.mem).cmds)
      (by rw [h2]; exact hheld) h3 (by rw [h1]; exact hp)
    rw [List.filter_append, hnone, List.append_nil, h4, h5, hsw, hsh] at hD
    have hD2 := deferred_run _ _ _ a sched2 _ d hacts hD hrun2
    obtain ⟨hdw, hdh, hD3⟩ := hD2
    rw [hidle] at hD3
    obtain ⟨hlock, hcase⟩ := hD3
    rcases hcase with ⟨hu, hr, hb⟩ | ⟨hu, hb⟩
    · refine Or.inl ⟨hu, hlock, hr, hb, fun env2 => ?_⟩
      rw [tick_positions_pending env2 d.mem hu hlock, hdw, hdh, hr]
    · exact Or.inr ⟨hu, hb⟩

/-- Witness of C19: after `busySchedule` the flag is set and the event thread
holds the lock; the tick sends no position.  The rest of the call, with ticks
in between and after, sends the position of `(900, 450)` once, on the first tick
after the call has returned. -/
theorem failed_lock_defers_witness :
    (capturedState.m_MousePositionLock = 0 ∧
      run (initial capturedState) busySchedule = some busyConfig ∧
      busyConfig.mem.m_MousePositionUpdated ≠ 0 ∧ busyConfig.mem.m_MousePositionLock ≠ 0) ∧
    (mouseMoveTimerCallback sampleEnv busyConfig.mem).cmds.filter Cmd.isPosition = [] ∧
    ((step busyConfig (Action.tick sampleEnv)).bind (fun c1 => run c1 finishingSchedule)).map
      (fun d => d.sent.filter Cmd.isPosition) = some [Cmd.position 700 450 1200 900] :=
  ⟨⟨by decide, by decide, by decide, by decide⟩,
   (failed_lock_defers capturedState busySchedule busyConfig sampleEnv (by decide) (by decide)
     (by decide) (by decide)).1,
   by decide⟩

/-! ## No torn reads -/

/-- Outside its critical section the timer thread keeps nothing that depends on
the report in memory. -/
theorem timerProgress_outside (rep rep1 : MousePositionReport)
    (history : List MousePositionReport) (t : TimerPc) (ht : t.inSection = false)
    (h : timerProgress rep history t) : timerProgress rep1 history t := by
  cases t <;> simp_all [TimerPc.inSection, timerProgress]

/-- A longer history keeps what the timer thread has. -/
theorem timerProgress_mono (rep : MousePositionReport)
    (history history1 : List MousePositionReport) (t : TimerPc)
    (hsub : ∀ r ∈ history, r ∈ history1)
    (h : timerProgress rep history t) : timerProgress rep history1 t := by
  cases t <;> simp_all [timerProgress]

/-- A record of the history is still in it after one more call has begun. -/
theorem history_grows (r0 : MousePositionReport) (writes : List MousePositionReport)
    (a : MousePositionReport) :
    ∀ r ∈ r0 :: writes, r ∈ r0 :: (writes ++ [a]) := by
  intro r hr
  simp only [List.mem_cons, List.mem_append] at hr ⊢
  tauto

/-- The initial configuration satisfies `FineReached` when the lock is free. -/
theorem fineReached_initial (s : State) (h0 : s.m_MousePositionLock = 0) :
    FineReached s (fineInitial s) where
  lockHeld := by simp [fineInitial, WriterPc.inSection, TimerPc.inSection, h0]
  exclusive := Or.inl rfl
  args := by simp [fineInitial, WriterPc.args]
  wprogress := by simp [fineInitial, writerProgress]
  tprogress := by simp [fineInitial, timerProgress]
  whole := by simp [fineInitial]
  stream := ⟨rfl, rfl⟩
  sentWhole := by simp [fineInitial]

/-- A new call keeps `FineReached`. -/
theorem fineReached_call (s0 : State) (c c1 : FineConfig) (env : Env) (mouseX mouseY : Int)
    (hc : FineReached s0 c) (hs : fineStep c (FineAction.call env mouseX mouseY) = some c1) :
    FineReached s0 c1 := by
  obtain ⟨hl, hex, hargs, hwp, htp, hwh, hst, hse⟩ := hc
  rcases c with ⟨mem, w, t, sent, writes⟩
  by_cases hw : w = WriterPc.idle
  · subst hw
    simp only [fineStep, if_true, Option.some.injEq] at hs
    subst hs
    have hsub0 := history_grows s0.m_MousePositionReport writes
      { x := mouseX, y := mouseY, windowWidth := env.windowWidth,
        windowHeight := env.windowHeight }
    exact
      { lockHeld := by simpa [writerCall, WriterPc.inSection] using hl
        exclusive := Or.inl rfl
        args := by
          intro a ha
          simp only [writerCall, WriterPc.args, Option.some.injEq] at ha
          subst ha
          simp
        wprogress := by simp [writerCall, writerProgress]
        tprogress := timerProgress_mono _ _ _ _ hsub0 htp
        whole := fun _ => hsub0 _ (hwh rfl)
        stream := hst
        sentWhole := by
          intro cmd hcmd hpos
          obtain ⟨r, hr, hrc⟩ := hse cmd hcmd hpos
          exact ⟨r, hsub0 r hr, hrc⟩ }
  · simp [fineStep, hw] at hs

/-- A statement of the event thread keeps `FineReached`. -/
theorem fineReached_write (s0 : State) (c c1 : FineConfig)
    (hc : FineReached s0 c) (hs : fineStep c FineAction.write = some c1) :
    FineReached s0 c1 := by
  obtain ⟨hl, hex, hargs, hwp, htp, hwh, hst, hse⟩ := hc
  rcases c with ⟨mem, w, t, sent, writes⟩
  simp only at hl hex hargs hwp htp hwh hst hse
  cases w with
  | idle => simp [fineStep, writerStep] at hs
  | lock a =>
    by_cases hlock : mem.m_MousePositionLock = 0
    · simp [fineStep, writerStep, SDL_AtomicLock, hlock] at hs
      subst hs
      have ht : t.inSection = false := (hl.1 hlock).2
      exact
        { lockHeld := by simp [WriterPc.inSection]
          exclusive := Or.inr ht
          args := hargs
          wprogress := by simp [writerProgress]
          tprogress := htp
          whole := by simp [WriterPc.inSection]
          stream := hst
          sentWhole := hse }
    · simp [fineStep, writerStep, SDL_AtomicLock, hlock] at hs
  | writeX a =>
    simp [fineStep, writerStep] at hs
    subst hs
    have ht : t.inSection = false := by simpa [WriterPc.inSection] using hex
    exact
      { lockHeld := by simpa [WriterPc.inSection] using hl
        exclusive := Or.inr ht
        args := hargs
        wprogress := by simp [writerProgress]
        tprogress := timerProgress_outside _ _ _ _ ht htp
        whole := by simp [WriterPc.inSection]
        stream := hst
        sentWhole := hse }
  | writeY a =>
    simp [fineStep, writerStep] at hs
    subst hs
    have ht : t.inSection = false := by simpa [WriterPc.inSection] using hex
    exact
      { lockHeld := by simpa [WriterPc.inSection] using hl
        exclusive := Or.inr ht
        args := hargs
        wprogress := by simpa [writerProgress] using hwp
        tprogress := timerProgress_outside _ _ _ _ ht htp
        whole := by simp [WriterPc.inSection]
        stream := hst
        sentWhole := hse }
  | writeWidth a =>
    simp [fineStep, writerStep] at hs
    subst hs
    have ht : t.inSection = false := by simpa [WriterPc.inSection] using hex
    exact
      { lockHeld := by simpa [WriterPc.inSection] using hl
        exclusive := Or.inr ht
        args := hargs
        wprogress := by simpa [writerProgress] using hwp
        tprogress := timerProgress_outside _ _ _ _ ht htp
        whole := by simp [WriterPc.inSection]
        stream := hst
        sentWhole := hse }
  | writeHeight a =>
    simp [fineStep, writerStep] at hs
    subst hs
    have ht : t.inSection = false := by simpa [WriterPc.inSection] using hex
    exact
      { lockHeld := by simpa [WriterPc.inSection] using hl
        exclusive := Or.inr ht
        args := hargs
        wprogress := by
          simp only [writerProgress] at hwp ⊢
          obtain ⟨h1, h2, h3⟩ := hwp
          cases a
          simp_all
        tprogress := timerProgress_outside _ _ _ _ ht htp
        whole := by simp [WriterPc.inSection]
        stream := hst
        sentWhole := hse }
  | unlock a =>
    simp [fineStep, writerStep, SDL_AtomicUnlock] at hs
    subst hs
    have ht : t.inSection = false := by simpa [WriterPc.inSection] using hex
    have hrep : mem.m_MousePositionReport = a := by simpa [writerProgress] using hwp
    exact
      { lockHeld := by simp [WriterPc.inSection, ht]
        exclusive := Or.inr ht
        args := hargs
        wprogress := by simpa [writerProgress] using hwp
        tprogress := htp
        whole := fun _ => by
          rw [hrep]
          exact List.mem_cons_of_mem _ (hargs a rfl)
        stream := hst
        sentWhole := hse }
  | setUpdated a =>
    simp [fineStep, writerStep] at hs
    subst hs
    exact
      { lockHeld := by simpa [WriterPc.inSection] using hl
        exclusive := Or.inl rfl
        args := by simp [WriterPc.args]
        wprogress := by simp [writerProgress]
        tprogress := htp
        whole := fun _ => hwh rfl
        stream := hst
        sentWhole := hse }

/-- The delta part of the timer callback sends no position command. -/
theorem drainMouseDelta_not_position (s : State) :
    ∀ cmd ∈ (drainMouseDelta s).2, cmd.isPosition = false := by
  intro cmd hcmd
  unfold drainMouseDelta at hcmd
  simp only at hcmd
  split at hcmd
  · simp only [List.mem_singleton] at hcmd
    subst hcmd
    rfl
  · simp at hcmd

/-- A statement of the timer thread keeps `FineReached`. -/
theorem fineReached_timer (s0 : State) (c c1 : FineConfig) (env : Env)
    (hc : FineReached s0 c) (hs : fineStep c (FineAction.timer env) = some c1) :
    FineReached s0 c1 := by
  obtain ⟨hl, hex, hargs, hwp, htp, hwh, hst, hse⟩ := hc
  rcases c with ⟨mem, w, t, sent, writes⟩
  simp only at hl hex hargs hwp htp hwh hst hse
  simp only [fineStep, Option.some.injEq] at hs
  subst hs
  cases t with
  | idle =>
    simp only [timerStep, drainMouseDelta_state]
    exact
      { lockHeld := by simpa [TimerPc.inSection] using hl
        exclusive := Or.inr rfl
        args := hargs
        wprogress := hwp
        tprogress := by simp [timerProgress]
        whole := hwh
        stream := hst
        sentWhole := by
          intro cmd hcmd hpos
          rcases List.mem_append.1 hcmd with h | h
          · exact hse cmd h hpos
          · rw [drainMouseDelta_not_position mem cmd h] at hpos
            cases hpos }
  | testFlag =>
    simp only [timerStep, SDL_AtomicSet]
    by_cases hu : mem.m_MousePositionUpdated = 0
    · simp only [hu, ne_eq, not_true_eq_false, if_false, List.append_nil]
      exact
        { lockHeld := by simpa [TimerPc.inSection] using hl
          exclusive := Or.inr rfl
          args := hargs
          wprogress := hwp
          tprogress := by simp [timerProgress]
          whole := hwh
          stream := hst
          sentWhole := hse }
    · simp only [hu, ne_eq, not_false_eq_true, if_true, List.append_nil]
      exact
        { lockHeld := by simpa [TimerPc.inSection] using hl
          exclusive := Or.inr rfl
          args := hargs
          wprogress := hwp
          tprogress := by simp [timerProgress]
          whole := hwh
          stream := hst
          sentWhole := hse }
  | tryLock =>
    simp only [timerStep, SDL_AtomicTryLock]
    by_cases hlock : mem.m_MousePositionLock = 0
    · simp only [hlock, if_true, List.append_nil]
      have hw : w.inSection = false := (hl.1 hlock).1
      exact
        { lockHeld := by simp [TimerPc.inSection]
          exclusive := Or.inl hw
          args := hargs
          wprogress := hwp
          tprogress := by simp [timerProgress]
          whole := hwh
          stream := hst
          sentWhole := hse }
    · simp only [hlock, if_false, Bool.false_eq_true, List.append_nil]
      exact
        { lockHeld := by simpa [TimerPc.inSection] using hl
          exclusive := Or.inr rfl
          args := hargs
          wprogress := hwp
          tprogress := by simp [timerProgress]
          whole := hwh
          stream := hst
          sentWhole := hse }
  | readWidth =>
    simp only [timerStep, List.append_nil]
    exact
      { lockHeld := by simpa [TimerPc.inSection] using hl
        exclusive := by simpa [TimerPc.inSection] using hex
        args := hargs
        wprogress := hwp
        tprogress := by simp [timerProgress]
        whole := hwh
        stream := hst
        sentWhole := hse }
  | readHeight rw =>
    simp only [timerStep, List.append_nil]
    exact
      { lockHeld := by simpa [TimerPc.inSection] using hl
        exclusive := by simpa [TimerPc.inSection] using hex
        args := hargs
        wprogress := hwp
        tprogress := by simpa [timerProgress] using htp
        whole := hwh
        stream := hst
        sentWhole := hse }
  | readX rw rh =>
    simp only [timerStep, List.append_nil]
    exact
      { lockHeld := by simpa [TimerPc.inSection] using hl
        exclusive := by simpa [TimerPc.inSection] using hex
        args := hargs
        wprogress := hwp
        tprogress := by simpa [timerProgress] using htp
        whole := hwh
        stream := hst
        sentWhole := hse }
  | readY rw rh rx =>
    simp only [timerStep, List.append_nil]
    exact
      { lockHeld := by simpa [TimerPc.inSection] using hl
        exclusive := by simpa [TimerPc.inSection] using hex
        args := hargs
        wprogress := hwp
        tprogress := by
          simp only [timerProgress] at htp ⊢
          obtain ⟨h1, h2, h3⟩ := htp
          subst h1 h2 h3
          rfl
        whole := hwh
        stream := hst
        sentWhole := hse }
  | unlock snap =>
    simp only [timerStep, SDL_AtomicUnlock, List.append_nil]
    have hw : w.inSection = false := by simpa [TimerPc.inSection] using hex
    have hsnap : snap = mem.m_MousePositionReport := by simpa [timerProgress] using htp
    exact
      { lockHeld := by simp [TimerPc.inSection, hw]
        exclusive := Or.inr rfl
        args := hargs
        wprogress := hwp
        tprogress := by
          simp only [timerProgress]
          rw [hsnap]
          exact hwh hw
        whole := hwh
        stream := hst
        sentWhole := hse }
  | send snap =>
    simp only [timerStep]
    have hsnap : snap ∈ s0.m_MousePositionReport :: writes := by
      simpa [timerProgress] using htp
    exact
      { lockHeld := by simpa [TimerPc.inSection] using hl
        exclusive := Or.inr rfl
        args := hargs
        wprogress := hwp
        tprogress := by simp [timerProgress]
        whole := hwh
        stream := hst
        sentWhole := by
          intro cmd hcmd hpos
          rcases List.mem_append.1 hcmd with h | h
          · exact hse cmd h hpos
          · simp only [List.mem_singleton] at h
            exact ⟨snap, hsnap, by rw [h, hst.1, hst.2]⟩ }
  | tail =>
    simp only [timerStep, List.append_nil]
    obtain ⟨p, hp⟩ := pendingMouseLeaveButtonUp_state env mem
    rw [hp]
    exact
      { lockHeld := by simpa [TimerPc.inSection] using hl
        exclusive := Or.inr rfl
        args := hargs
        wprogress := hwp
        tprogress := by simp [timerProgress]
        whole := hwh
        stream := hst
        sentWhole := hse }

/-- Every interleaving keeps `FineReached`. -/
theorem fineReached_run (s0 : State) (sched : List FineAction) :
    ∀ c c1 : FineConfig, FineReached s0 c → fineRun c sched = some c1 → FineReached s0 c1 := by
  induction sched with
  | nil =>
    intro c c1 hc hr
    simp only [fineRun, Option.some.injEq] at hr
    subst hr
    exact hc
  | cons a rest ih =>
    intro c c1 hc hr
    simp only [fineRun] at hr
    cases hstep : fineStep c a with
    | none => simp [hstep] at hr
    | some c2 =>
      simp only [hstep] at hr
      refine ih c2 c1 ?_ hr
      cases a with
      | call env mouseX mouseY => exact fineReached_call s0 c c2 env mouseX mouseY hc hstep
      | write => exact fineReached_write s0 c c2 hc hstep
      | timer env => exact fineReached_timer s0 c c2 env hc hstep

/-- The statements of the timer thread, run without the event thread stepping
in between, do what `mouseMoveTimerCallback` does as a whole. -/
theorem timer_steps_callback (env : Env) (c : FineConfig) (hidle : c.timer = TimerPc.idle) :
    ∃ k : Nat, fineRun c (List.replicate k (FineAction.timer env))
      = some { c with mem := (mouseMoveTimerCallback env c.mem).state
                      sent := c.sent ++ (mouseMoveTimerCallback env c.mem).cmds } := by
  rcases c with ⟨mem, w, t, sent, writes⟩
  simp only at hidle
  subst hidle
  by_cases hu : mem.m_MousePositionUpdated = 0
  · refine ⟨3, ?_⟩
    simp [fineRun, fineStep, timerStep, List.replicate, mouseMoveTimerCallback,
      drainMouseDelta_state, drainMousePosition_idle, SDL_AtomicSet, hu]
  · by_cases hlock : mem.m_MousePositionLock = 0
    · refine ⟨10, ?_⟩
      simp [fineRun, fineStep, timerStep, List.replicate, mouseMoveTimerCallback,
        drainMouseDelta_state, drainMousePosition_pending, SDL_AtomicSet, SDL_AtomicTryLock,
        SDL_AtomicUnlock, hu, hlock, positionCommand, videoRegion, LiSendMousePositionEvent,
        toShort_toShort]
    · refine ⟨4, ?_⟩
      have hpos : drainMousePosition { mem with m_MouseDeltaX := 0, m_MouseDeltaY := 0 }
          = ({ mem with m_MouseDeltaX := 0, m_MouseDeltaY := 0, m_MousePositionUpdated := 0 },
              []) := by
        apply Prod.ext
        · rw [drainMousePosition_state]
        · exact drainMousePosition_locked _ (by simpa using hlock)
      simp [fineRun, fineStep, timerStep, List.replicate, mouseMoveTimerCallback,
        drainMouseDelta_state, hpos, SDL_AtomicSet, SDL_AtomicTryLock, hu, hlock]

/-- The statements of the event thread, run from a free lock, do what
`updateMousePositionReport` does as a whole. -/
theorem writer_steps_update (env : Env) (s : State) (mouseX mouseY : Int) (sent : List Cmd)
    (hlock : s.m_MousePositionLock = 0) :
    ∃ s1 : State, updateMousePositionReport env s mouseX mouseY = some s1 ∧
      run { mem := s, writer := WriterPc.idle, sent := sent }
          (Action.call env mouseX mouseY :: List.replicate 7 Action.write)
        = some { mem := s1, writer := WriterPc.idle, sent := sent } := by
  refine ⟨_, updateMousePositionReport_free env s mouseX mouseY hlock, ?_⟩
  simp [run, step, writerCall, writerStep, List.replicate, SDL_AtomicLock, SDL_AtomicUnlock,
    SDL_AtomicSet, hlock]

/-- C13. Under every interleaving of the statements of
`updateMousePositionReport` with the statements of `mouseMoveTimerCallback`,
started with both threads outside their functions and the lock free: the two
threads are never in their critical sections together; while the timer thread
holds the lock the report in memory is, as a whole, the initial report or the
record of one call, and the fields read so far are fields of it; the complete
snapshot `(x, y, windowWidth, windowHeight)` kept after a successful
`SDL_AtomicTryLock` is such a whole record; and every position command sent was
built from such a whole record. -/
theorem no_torn_reads (s0 : State) (sched : List FineAction) (c : FineConfig)
    (h0 : s0.m_MousePositionLock = 0) (hrun : fineRun (fineInitial s0) sched = some c) :
    (c.writer.inSection = false ∨ c.timer.inSection = false) ∧
    (c.timer.inSection = true →
      c.mem.m_MousePositionReport ∈ s0.m_MousePositionReport :: c.writes ∧
      timerProgress c.mem.m_MousePositionReport (s0.m_MousePositionReport :: c.writes)
        c.timer) ∧
    (∀ snap : MousePositionReport, c.timer.snapshot = some snap →
      snap ∈ s0.m_MousePositionReport :: c.writes) ∧
    (∀ cmd ∈ c.sent, cmd.isPosition = true →
      ∃ r ∈ s0.m_MousePositionReport :: c.writes,
        cmd = positionCommand s0.m_StreamWidth s0.m_StreamHeight r) := by
  obtain ⟨_, hex, _, _, htp, hwh, _, hse⟩ :=
    fineReached_run s0 sched _ c (fineReached_initial s0 h0) hrun
  have hwhole : c.timer.inSection = true →
      c.mem.m_MousePositionReport ∈ s0.m_MousePositionReport :: c.writes := by
    intro ht
    rcases hex with h | h
    · exact hwh h
    · rw [ht] at h
      cases h
  refine ⟨hex, fun ht => ⟨hwhole ht, htp⟩, ?_, hse⟩
  intro snap hsnap
  cases hpc : c.timer with
  | unlock sn =>
    rw [hpc] at hsnap htp
    simp only [TimerPc.snapshot, Option.some.injEq] at hsnap
    subst hsnap
    simp only [timerProgress] at htp
    rw [htp]
    exact hwhole (by rw [hpc]; rfl)
  | send sn =>
    rw [hpc] at hsnap htp
    simp only [TimerPc.snapshot, Option.some.injEq] at hsnap
    subst hsnap
    exact htp
  | idle => rw [hpc] at hsnap; cases hsnap
  | testFlag => rw [hpc] at hsnap; cases hsnap
  | tryLock => rw [hpc] at hsnap; cases hsnap
  | readWidth => rw [hpc] at hsnap; cases hsnap
  | readHeight rw => rw [hpc] at hsnap; cases hsnap
  | readX rw rh => rw [hpc] at hsnap; cases hsnap
  | readY rw rh rx => rw [hpc] at hsnap; cases hsnap
  | tail => rw [hpc] at hsnap; cases hsnap

/-- Witness of C13: in `tornSchedule` the first tick meets the event thread
between its stores of `y` and `windowWidth` and gives up; the second tick reads
`(900, 450, 1600, 900)`, the record of the one call, not a mix with the initial
`(1, 2, 640, 480)`. -/
theorem no_torn_reads_witness :
    ((reportState 1 2 640 480).m_MousePositionLock = 0 ∧
      fineRun (fineInitial (reportState 1 2 640 480)) tornSchedule = some tornConfig) ∧
    tornConfig.timer.snapshot
      = some { x := 900, y := 450, windowWidth := 1600, windowHeight := 900 } ∧
    ({ x := 900, y := 450, windowWidth := 1600, windowHeight := 900 } : MousePositionReport)
      ∈ (reportState 1 2 640 480).m_MousePositionReport :: tornConfig.writes :=
  ⟨⟨by decide, by decide⟩, by decide,
   (no_torn_reads (reportState 1 2 640 480) tornSchedule tornConfig (by decide)
     (by decide)).2.2.1 _ (by decide)⟩

end SdlInputHandler
